import Mathlib

/-!
Verification of the collaborative session coordination layer
(`crates/collab/src/db.rs`) against its natural-language specification.

The Rust code is shallowly embedded: each table of the relational store
becomes a list of row structures inside a `Db` state, every SQL statement
becomes the corresponding pure list transformation, and every database
operation becomes a function `Db → Except Error (Db × α)` whose returned
state is the state at commit time.  An `Except.error` result models a
transaction that was dropped without committing, so `applyTx` (the glue
that runs one transaction against a state) leaves the state unchanged in
that case — exactly the rollback semantics of the source.

Identifier domains (`UserId`, `RoomId`, `ProjectId`, …) are `i32` newtypes
in the source; they are embedded as `Int`.
-/

namespace Collab

/-- Errors produced by database operations.  `database` models
`Error::Database` carrying a store-reported error with its optional error
code (`error.as_database_error().and_then(|e| e.code())`); `rowNotFound`
models `sqlx::Error::RowNotFound` raised by `fetch_one` on an empty result
set (its `as_database_error()` is `None`, hence it carries no code);
`message` models `anyhow!`-style application errors. -/
inductive Error where
  | database (code : Option String)
  | rowNotFound
  | message (text : String)
deriving DecidableEq, Repr


/-- The retry classifier of `Db::transact` (db.rs:2518-2523): an error is a
serialization conflict exactly when it is a database error whose reported
code is `"40001"`. -/
def isSerializationConflict : Error → Bool
  | .database (some code) => code == "40001"
  | _ => false


/-- Whether one invocation of the transactional closure leads to a retry:
only an `Err` classified as a serialization conflict does (db.rs:2515-2528). -/
def retriesOutcome {α : Type} : Except Error α → Bool
  | .error e => isSerializationConflict e
  | .ok _ => false


/-- The retry loop of `Db::transact` (db.rs:2512-2531), embedded with
explicit fuel.  `attempts i` is the outcome of the `i`-th invocation of the
closure `f` on the fresh transaction begun for round `i`; the loop returns
the first outcome that is not a serialization conflict, re-invoking the
closure from scratch otherwise.  `none` means the given fuel was exhausted
while the loop was still retrying (the source loop has no cap at all). -/
def transactLoop {α : Type} (attempts : Nat → Except Error α) :
    Nat → Nat → Option (Except Error α)
  | _, 0 => none
  | i, fuel + 1 =>
    if retriesOutcome (attempts i) then transactLoop attempts (i + 1) fuel
    else some (attempts i)


/-- Concrete attempt sequence: two serialization conflicts, then success. -/
def exAttempts : Nat → Except Error Nat := fun i =>
  if i < 2 then Except.error (Error.database (some "40001")) else Except.ok 42


/-! ## Data model: one list per table (schema of §3, row structs of db.rs) -/
structure RoomRow where
  id : Int
  live_kit_room : String
deriving DecidableEq, Repr


structure RoomParticipant where
  room_id : Int
  user_id : Int
  answering_connection_id : Option Int
  calling_user_id : Int
  calling_connection_id : Int
  initial_project_id : Option Int
  location_kind : Option Int
  location_project_id : Option Int
deriving DecidableEq, Repr


structure ProjectRow where
  id : Int
  room_id : Int
  host_user_id : Int
  host_connection_id : Int
deriving DecidableEq, Repr


structure ProjectCollaborator where
  project_id : Int
  connection_id : Int
  user_id : Int
  replica_id : Int
  is_host : Bool
deriving DecidableEq, Repr


structure WorktreeRow where
  project_id : Int
  id : Int
  root_name : String
  abs_path : String
  visible : Bool
  scan_id : Int
  is_complete : Bool
deriving DecidableEq, Repr


structure WorktreeEntryRow where
  project_id : Int
  worktree_id : Int
  id : Int
  is_dir : Bool
  path : String
  inode : Int
  mtime_seconds : Int
  mtime_nanos : Int
  is_symlink : Bool
  is_ignored : Bool
deriving DecidableEq, Repr


structure DiagnosticSummaryRow where
  project_id : Int
  worktree_id : Int
  path : String
  language_server_id : Int
  error_count : Int
  warning_count : Int
deriving DecidableEq, Repr


structure LanguageServerRow where
  project_id : Int
  id : Int
  name : String
deriving DecidableEq, Repr


structure ContactRow where
  user_id_a : Int
  user_id_b : Int
  a_to_b : Bool
  accepted : Bool
  should_notify : Bool
deriving DecidableEq, Repr


/-- The relational store.  `next_project_id` is the store-generated sequence
behind `projects.id` (`INSERT INTO projects … RETURNING id`). -/
structure Db where
  rooms : List RoomRow
  room_participants : List RoomParticipant
  projects : List ProjectRow
  project_collaborators : List ProjectCollaborator
  worktrees : List WorktreeRow
  worktree_entries : List WorktreeEntryRow
  diagnostic_summaries : List DiagnosticSummaryRow
  language_servers : List LanguageServerRow
  contacts : List ContactRow
  next_project_id : Int
deriving DecidableEq, Repr


/-! ## Room view reconstruction (`Db::get_room`, db.rs:1347-1457) -/
/-- `proto::participant_location::Variant`; `elsewhere` embeds the
`External` variant. -/
inductive LocationVariant where
  | sharedProject (id : Int)
  | unsharedProject
  | elsewhere
deriving DecidableEq, Repr


structure ParticipantProject where
  id : Int
  worktree_root_names : List String
deriving DecidableEq, Repr


structure Participant where
  user_id : Int
  peer_id : Int
  projects : List ParticipantProject
  location : LocationVariant
deriving DecidableEq, Repr


structure PendingParticipant where
  user_id : Int
  calling_user_id : Int
  initial_project_id : Option Int
deriving DecidableEq, Repr


structure RoomView where
  id : Int
  live_kit_room : String
  participants : List Participant
  pending_participants : List PendingParticipant
deriving DecidableEq, Repr


/-- Location resolution of db.rs:1386-1400: kind 0 with a project id is
`SharedProject`, kind 1 is `UnsharedProject`, anything else defaults to the
external variant. -/
def resolveLocation (location_kind location_project_id : Option Int) :
    LocationVariant :=
  match location_kind, location_project_id with
  | some 0, some project_id => .sharedProject project_id
  | some 1, _ => .unsharedProject
  | _, _ => .elsewhere


/-- Insert into the participant map keyed by answering connection id
(`HashMap::insert`; the map is embedded as an association list in insertion
order). -/
def insertKeyed (m : List (Int × Participant)) (k : Int) (v : Participant) :
    List (Int × Participant) :=
  if m.any (fun kv => kv.1 == k) then
    m.map (fun kv => if kv.1 == k then (k, v) else kv)
  else
    m ++ [(k, v)]


/-- `participants.get_mut(&k)` followed by a mutation: applies `f` to the
entry with key `k`, if any. -/
def modifyKeyed (m : List (Int × Participant)) (k : Int)
    (f : Participant → Participant) : List (Int × Participant) :=
  m.map (fun kv => if kv.1 == k then (kv.1, f kv.2) else kv)


/-- The find-or-push over `participant.projects` plus
`project.worktree_root_names.extend(worktree_root_name)` of db.rs:1433-1448. -/
def addWorktreeRootName (p : Participant) (project_id : Int)
    (root_name : Option String) : Participant :=
  if p.projects.any (fun proj => proj.id == project_id) then
    { p with projects := p.projects.map (fun proj =>
        if proj.id == project_id then
          { proj with worktree_root_names := proj.worktree_root_names ++ root_name.toList }
        else proj) }
  else
    { p with projects := p.projects ++ [⟨project_id, root_name.toList⟩] }


/-- The `projects LEFT JOIN worktrees` rows of db.rs:1420-1429:
`(host_connection_id, project_id, root_name?)`, one row per worktree, or a
single row with a NULL root name for a project with no worktrees. -/
def roomProjectRows (room_id : Int) (db : Db) :
    List (Int × Int × Option String) :=
  (db.projects.filter (fun p => p.room_id == room_id)).flatMap (fun p =>
    let ws := db.worktrees.filter (fun w => w.project_id == p.id)
    if ws.isEmpty then [(p.host_connection_id, p.id, none)]
    else ws.map (fun w => (p.host_connection_id, p.id, some w.root_name)))


/-- `Db::get_room` (db.rs:1347-1457): fetches the room row (`fetch_one`
fails when absent), splits the room's participant rows into joined
participants (keyed by answering connection id) and pending ones, then
attaches each shared project's worktree root names to its host participant. -/
def get_room (room_id : Int) (db : Db) : Except Error RoomView :=
  match (db.rooms.filter (fun r => r.id == room_id)).head? with
  | none => .error .rowNotFound
  | some room =>
    let rows := db.room_participants.filter (fun p => p.room_id == room_id)
    let step := fun (acc : List (Int × Participant) × List PendingParticipant)
        (p : RoomParticipant) =>
      match p.answering_connection_id with
      | some answering_connection_id =>
        (insertKeyed acc.1 answering_connection_id
          { user_id := p.user_id
            peer_id := answering_connection_id
            projects := []
            location := resolveLocation p.location_kind p.location_project_id },
         acc.2)
      | none =>
        (acc.1, acc.2 ++ [⟨p.user_id, p.calling_user_id, p.initial_project_id⟩])
    let split := rows.foldl step ([], [])
    let participants := (roomProjectRows room_id db).foldl
      (fun m row => modifyKeyed m row.1 (fun p => addWorktreeRootName p row.2.1 row.2.2))
      split.1
    .ok { id := room.id
          live_kit_room := room.live_kit_room
          participants := participants.map (fun kv => kv.2)
          pending_participants := split.2 }


/-- Runs one transactional unit of work against a state: on `ok` the
transaction committed and the returned state applies; on `error` the
transaction was dropped without commit, so the state is unchanged. -/
def applyTx {α : Type} (op : Db → Except Error (Db × α)) (db : Db) :
    Db × Except Error α :=
  match op db with
  | .ok (db1, a) => (db1, .ok a)
  | .error e => (db, .error e)


/-! ## Call / room operations -/
/-- The DELETE of `call_failed` (db.rs:1056-1065): removes the participant
rows matching `room_id = $1 AND user_id = $2` — no
`answering_connection_id IS NULL` condition. -/
def deleteRoomUserParticipants (room_id user_id : Int) (db : Db) : Db :=
  { db with room_participants := db.room_participants.filter (fun p => !(p.room_id == room_id && p.user_id == user_id)) }


/-- `Db::call_failed` (db.rs:1050-1072): runs the unconditional delete for
`(room_id, called_user_id)`, then returns the room view. -/
def call_failed (room_id called_user_id : Int) (db : Db) :
    Except Error (Db × RoomView) :=
  let db1 := deleteRoomUserParticipants room_id called_user_id db
  match get_room room_id db1 with
  | .error e => .error e
  | .ok room => .ok (db1, room)


/-- The WHERE clause of `decline_call`: a pending row of `user_id`
(in any room). -/
def isPendingRowFor (user_id : Int) (p : RoomParticipant) : Bool :=
  p.user_id == user_id && p.answering_connection_id == none


/-- `Db::decline_call` (db.rs:1074-1099): `DELETE … RETURNING room_id` with
`fetch_one` (the first deleted row's room id; error when none matched), then
the expected-room check, then the room view.  The deletion precedes the
check, but a failed check aborts the uncommitted transaction. -/
def decline_call (expected_room_id : Option Int) (user_id : Int) (db : Db) :
    Except Error (Db × RoomView) :=
  match (db.room_participants.filter (isPendingRowFor user_id)).head? with
  | none => .error .rowNotFound
  | some row =>
    let db1 := { db with room_participants :=
      db.room_participants.filter (fun p => !(isPendingRowFor user_id p)) }
    if expected_room_id.any (fun expected => expected != row.room_id) then
      .error (.message "declining call on unexpected room")
    else
      match get_room row.room_id db1 with
      | .error e => .error e
      | .ok room => .ok (db1, room)


/-- The WHERE clause of `cancel_call`: a pending row of `called_user_id`
placed by `calling_connection_id`. -/
def isPendingCallBy (called_user_id calling_connection_id : Int)
    (p : RoomParticipant) : Bool :=
  p.user_id == called_user_id &&
    p.calling_connection_id == calling_connection_id &&
    p.answering_connection_id == none


/-- `Db::cancel_call` (db.rs:1101-1127): like `decline_call`, but the delete
additionally requires the deleting party to be the original caller
connection. -/
def cancel_call (expected_room_id : Option Int)
    (calling_connection_id called_user_id : Int) (db : Db) :
    Except Error (Db × RoomView) :=
  match (db.room_participants.filter
      (isPendingCallBy called_user_id calling_connection_id)).head? with
  | none => .error .rowNotFound
  | some row =>
    let db1 := { db with room_participants :=
      db.room_participants.filter (fun p => !(isPendingCallBy called_user_id calling_connection_id p)) }
    if expected_room_id.any (fun expected => expected != row.room_id) then
      .error (.message "canceling call on unexpected room")
    else
      match get_room row.room_id db1 with
      | .error e => .error e
      | .ok room => .ok (db1, room)


/-- The UPDATE of `join_room` (db.rs:1136-1148): sets
`answering_connection_id` on the rows matching `room_id = $2 AND
user_id = $3` — there is no `answering_connection_id IS NULL` condition. -/
def setAnsweringConnection (room_id user_id connection_id : Int) (db : Db) : Db :=
  { db with room_participants := db.room_participants.map (fun p =>
      if p.room_id == room_id && p.user_id == user_id then
        { p with answering_connection_id := some connection_id }
      else p) }


/-- `Db::join_room` (db.rs:1129-1155): `fetch_one` on the UPDATE's
`RETURNING 1` errors exactly when no row matched; otherwise the update
applies and the room view is returned. -/
def join_room (room_id user_id connection_id : Int) (db : Db) :
    Except Error (Db × RoomView) :=
  if (db.room_participants.filter
      (fun p => p.room_id == room_id && p.user_id == user_id)).isEmpty then
    .error .rowNotFound
  else
    let db1 := setAnsweringConnection room_id user_id connection_id db
    match get_room room_id db1 with
    | .error e => .error e
    | .ok room => .ok (db1, room)


/-! ## Project operations (db.rs:1476-2146) -/
/-- `proto::WorktreeMetadata` as supplied by the host. -/
structure WorktreeMetadata where
  id : Int
  root_name : String
  abs_path : String
  visible : Bool
deriving DecidableEq, Repr


/-- The replica-id scan of `join_project` (db.rs:1941-1944): starting from
1, increment while the candidate is already taken.  The `while` loop is
embedded with fuel `used.length + 1`; the characterization lemmas below
show this fuel always suffices to reach the first free id. -/
def pickReplicaIdAux (used : List Int) : Nat → Int → Int
  | 0, r => r
  | fuel + 1, r => if r ∈ used then pickReplicaIdAux used fuel (r + 1) else r


def pickReplicaId (used : List Int) : Int :=
  pickReplicaIdAux used (used.length + 1) 1


/-- `Db::share_project` (db.rs:1476-1568): looks up the sharer's joined
participant row by connection (`fetch_one`), checks the expected room,
inserts the project row (fresh sequence id), the initial worktree rows, and
the host's collaborator row with replica id 0 and `is_host = true`, then
returns the project id with the room view. -/
def share_project (expected_room_id connection_id : Int)
    (worktrees : List WorktreeMetadata) (db : Db) :
    Except Error (Db × (Int × RoomView)) :=
  match (db.room_participants.filter (fun p => p.answering_connection_id == some connection_id)).head? with
  | none => .error .rowNotFound
  | some part =>
    if part.room_id != expected_room_id then
      .error (.message "shared project on unexpected room")
    else
      let project_id := db.next_project_id
      let db1 := { db with
        projects := db.projects ++ [⟨project_id, part.room_id, part.user_id, connection_id⟩],
        worktrees := db.worktrees ++ worktrees.map (fun w => ⟨project_id, w.id, w.root_name, w.abs_path, w.visible, 0, false⟩),
        project_collaborators := db.project_collaborators ++ [⟨project_id, connection_id, part.user_id, 0, true⟩],
        next_project_id := db.next_project_id + 1 }
      match get_room part.room_id db1 with
      | .error e => .error e
      | .ok room => .ok (db1, (project_id, room))


/-- `Db::get_guest_connection_ids` (db.rs:1326-1345): connection ids of the
project's non-host collaborators. -/
def get_guest_connection_ids (project_id : Int) (db : Db) : List Int :=
  (db.project_collaborators.filter (fun c => c.project_id == project_id && c.is_host == false)).map (fun c => c.connection_id)


/-- One row of the multi-row `INSERT … ON CONFLICT (project_id, id) DO
UPDATE SET root_name = excluded.root_name` of `update_project`
(db.rs:1615-1645): on key conflict only `root_name` is overwritten;
otherwise a fresh row with `scan_id = 0` and `is_complete = false` is
inserted. -/
def upsertWorktree (project_id : Int) (w : WorktreeMetadata)
    (rows : List WorktreeRow) : List WorktreeRow :=
  if rows.any (fun r => r.project_id == project_id && r.id == w.id) then
    rows.map (fun r => if r.project_id == project_id && r.id == w.id then { r with root_name := w.root_name } else r)
  else
    rows ++ [⟨project_id, w.id, w.root_name, w.abs_path, w.visible, 0, false⟩]


/-- The worktree mutation of `update_project` (db.rs:1615-1663): the upsert
of each supplied metadata row in order, followed by `DELETE FROM worktrees
WHERE project_id = ? AND id NOT IN (ids)`.  With an empty metadata list the
`NOT IN ()` clause is vacuously true (the SQLite behavior of the test
backend), so every worktree of the project is deleted. -/
def updateProjectWorktrees (project_id : Int) (ws : List WorktreeMetadata)
    (rows : List WorktreeRow) : List WorktreeRow :=
  let upserted := ws.foldl (fun rows w => upsertWorktree project_id w rows) rows
  let ids := ws.map (fun w => w.id)
  upserted.filter (fun r => !(r.project_id == project_id && !(ids.contains r.id)))


/-- `Db::update_project` (db.rs:1596-1672): host check (`fetch_one` of the
project row by id and host connection), then the worktree
upsert-and-delete, then the guest connection ids and the room view. -/
def update_project (project_id connection_id : Int)
    (worktrees : List WorktreeMetadata) (db : Db) :
    Except Error (Db × (RoomView × List Int)) :=
  match (db.projects.filter (fun p => p.id == project_id && p.host_connection_id == connection_id)).head? with
  | none => .error .rowNotFound
  | some proj =>
    let db2 := { db with worktrees := updateProjectWorktrees project_id worktrees db.worktrees }
    let guest_connection_ids := get_guest_connection_ids project_id db2
    match get_room proj.room_id db2 with
    | .error e => .error e
    | .ok room => .ok (db2, (room, guest_connection_ids))


/-- `proto::Entry` as materialized by `join_project` (db.rs:2017-2028);
`mtime` is flattened to its two components. -/
structure EntryView where
  id : Int
  is_dir : Bool
  path : String
  inode : Int
  mtime_seconds : Int
  mtime_nanos : Int
  is_symlink : Bool
  is_ignored : Bool
deriving DecidableEq, Repr


structure DiagnosticSummaryView where
  path : String
  language_server_id : Int
  error_count : Int
  warning_count : Int
deriving DecidableEq, Repr


structure LanguageServerView where
  id : Int
  name : String
deriving DecidableEq, Repr


structure Worktree where
  id : Int
  abs_path : String
  root_name : String
  visible : Bool
  entries : List EntryView
  diagnostic_summaries : List DiagnosticSummaryView
  scan_id : Int
  is_complete : Bool
deriving DecidableEq, Repr


/-- The project snapshot returned by `join_project`; `worktrees` is the
`BTreeMap` keyed by worktree id, embedded as an association list sorted by
key. -/
structure Project where
  collaborators : List ProjectCollaborator
  worktrees : List (Int × Worktree)
  language_servers : List LanguageServerView
deriving DecidableEq, Repr


/-- `BTreeMap::insert`: ordered insertion, overwriting an equal key. -/
def btreeInsert (k : Int) (v : Worktree) :
    List (Int × Worktree) → List (Int × Worktree)
  | [] => [(k, v)]
  | (k1, v1) :: rest =>
    if k < k1 then (k, v) :: (k1, v1) :: rest
    else if k == k1 then (k, v) :: rest
    else (k1, v1) :: btreeInsert k v rest


/-- `BTreeMap::get_mut` followed by a mutation: applies `f` at key `k`. -/
def btreeModify (k : Int) (f : Worktree → Worktree)
    (m : List (Int × Worktree)) : List (Int × Worktree) :=
  m.map (fun kv => if kv.1 == k then (kv.1, f kv.2) else kv)


def worktreeOfRow (row : WorktreeRow) : Worktree :=
  ⟨row.id, row.abs_path, row.root_name, row.visible, [], [], row.scan_id, row.is_complete⟩


def entryViewOfRow (e : WorktreeEntryRow) : EntryView :=
  ⟨e.id, e.is_dir, e.path, e.inode, e.mtime_seconds, e.mtime_nanos, e.is_symlink, e.is_ignored⟩


/-- The snapshot assembly of `join_project` (db.rs:1974-2085): worktree rows
into a map keyed by id, then entries, diagnostic summaries and language
servers of the project attached to their worktrees. -/
def joinProjectSnapshot (project_id : Int) (db : Db)
    (collaborators : List ProjectCollaborator) : Project :=
  let base := (db.worktrees.filter (fun w => w.project_id == project_id)).foldl (fun m row => btreeInsert row.id (worktreeOfRow row) m) []
  let withEntries := (db.worktree_entries.filter (fun e => e.project_id == project_id)).foldl (fun m e => btreeModify e.worktree_id (fun w => { w with entries := w.entries ++ [entryViewOfRow e] }) m) base
  let withSummaries := (db.diagnostic_summaries.filter (fun s => s.project_id == project_id)).foldl (fun m s => btreeModify s.worktree_id (fun w => { w with diagnostic_summaries := w.diagnostic_summaries ++ [⟨s.path, s.language_server_id, s.error_count, s.warning_count⟩] }) m) withEntries
  { collaborators := collaborators
    worktrees := withSummaries
    language_servers := (db.language_servers.filter (fun l => l.project_id == project_id)).map (fun l => ⟨l.id, l.name⟩) }


/-- `Db::join_project` (db.rs:1897-2088): looks up the joining connection's
joined participant row, checks the project was shared on that room, fetches
the project's collaborators, picks the smallest free replica id starting
from 1, inserts the new non-host collaborator row, and returns the full
project snapshot together with the assigned replica id. -/
def join_project (project_id connection_id : Int) (db : Db) :
    Except Error (Db × (Project × Int)) :=
  match (db.room_participants.filter (fun p => p.answering_connection_id == some connection_id)).head? with
  | none => .error .rowNotFound
  | some part =>
    if !(db.projects.any (fun p => p.id == project_id && p.room_id == part.room_id)) then
      .error .rowNotFound
    else
      let collaborators := db.project_collaborators.filter (fun c => c.project_id == project_id)
      let replica_id := pickReplicaId (collaborators.map (fun c => c.replica_id))
      let new_collaborator : ProjectCollaborator := ⟨project_id, connection_id, part.user_id, replica_id, false⟩
      let db1 := { db with project_collaborators := db.project_collaborators ++ [new_collaborator] }
      .ok (db1, (joinProjectSnapshot project_id db1 (collaborators ++ [new_collaborator]), replica_id))


structure LeftProject where
  id : Int
  host_user_id : Int
  host_connection_id : Int
  connection_ids : List Int
deriving DecidableEq, Repr


/-- The DELETE of `leave_project` (db.rs:2096-2105): removes the
collaborator rows matching `project_id = $1 AND connection_id = $2`. -/
def deleteProjectCollaborator (project_id connection_id : Int) (db : Db) : Db :=
  { db with project_collaborators := db.project_collaborators.filter (fun c => !(c.project_id == project_id && c.connection_id == connection_id)) }


/-- `Db::leave_project` (db.rs:2090-2146): deletes the collaborator row for
the connection, errors when zero rows were affected, then returns the host
identity and the remaining collaborator connection ids. -/
def leave_project (project_id connection_id : Int) (db : Db) :
    Except Error (Db × LeftProject) :=
  let deleted := db.project_collaborators.filter (fun c => c.project_id == project_id && c.connection_id == connection_id)
  let db1 := deleteProjectCollaborator project_id connection_id db
  if deleted.length == 0 then
    .error (.message "not a collaborator on this project")
  else
    let connection_ids := (db1.project_collaborators.filter (fun c => c.project_id == project_id)).map (fun c => c.connection_id)
    match (db1.projects.filter (fun p => p.id == project_id)).head? with
    | none => .error .rowNotFound
    | some proj =>
      .ok (db1, ⟨project_id, proj.host_user_id, proj.host_connection_id, connection_ids⟩)


/-- A pending participant row in room 1: user 10 called by user 3 over
connection 4, not yet answered. -/
def exPendingRow : RoomParticipant := ⟨1, 10, none, 3, 4, none, none, none⟩


def exDb7 : Db := ⟨[⟨1, "r7"⟩], [exPendingRow], [], [], [], [], [], [], [], 1⟩


/-! ## C8: `call_failed` deletes the matched row whether pending or joined -/
/-- A joined participant row in room 1: user 2 answered over connection 9. -/
def exJoinedRow8 : RoomParticipant := ⟨1, 2, some 9, 3, 7, none, none, none⟩


def exDb8 : Db := ⟨[⟨1, "r8"⟩], [exJoinedRow8], [], [], [], [], [], [], [], 1⟩


/-! ## C3: `join_room` has no Pending-only guard -/
/-- A participant row for (room 1, user 10) that is already Joined over
connection 5. -/
def exJoinedRow3 : RoomParticipant := ⟨1, 10, some 5, 10, 5, none, none, none⟩


def exDb3 : Db := ⟨[⟨1, "r3"⟩], [exJoinedRow3], [], [], [], [], [], [], [], 1⟩


/-- Room 1 with host user 100 joined over connection 3 and guest user 200
joined over connection 5; project 1 shared by the host with the guest
already a collaborator holding replica id 1. -/
def exDb4 : Db :=
  ⟨[⟨1, "r4"⟩],
   [⟨1, 100, some 3, 100, 3, none, none, none⟩, ⟨1, 200, some 5, 100, 3, none, none, none⟩,
    ⟨1, 300, some 7, 100, 3, none, none, none⟩],
   [⟨1, 1, 100, 3⟩],
   [⟨1, 3, 100, 0, true⟩, ⟨1, 5, 200, 1, false⟩],
   [], [], [], [], [], 2⟩


/-- Project 1 in room 1, hosted by user 100 over connection 3, with guest
user 200 over connection 5; the host leaves. -/
def exDb10 : Db :=
  ⟨[⟨1, "r10"⟩],
   [⟨1, 100, some 3, 100, 3, none, none, none⟩, ⟨1, 200, some 5, 100, 3, none, none, none⟩],
   [⟨1, 1, 100, 3⟩],
   [⟨1, 3, 100, 0, true⟩, ⟨1, 5, 200, 1, false⟩],
   [⟨1, 9, "src", "/a/src", true, 0, false⟩], [], [], [], [], 2⟩


/-- Project 1 hosted over connection 3 with worktrees 1 ("old") and 3
("gone"); the update supplies worktree 1 renamed to "src" and a new
worktree 2 ("docs"). -/
def exDb5 : Db :=
  ⟨[⟨1, "r5"⟩],
   [⟨1, 100, some 3, 100, 3, none, none, none⟩],
   [⟨1, 1, 100, 3⟩],
   [⟨1, 3, 100, 0, true⟩],
   [⟨1, 1, "old", "/a", true, 0, false⟩, ⟨1, 3, "gone", "/c", true, 0, false⟩],
   [], [], [], [], 2⟩


def exWs5 : List WorktreeMetadata := [⟨1, "src", "/a", true⟩, ⟨2, "docs", "/b", true⟩]


/-! ## Contact operations (db.rs:2208-2448) -/
/-- The read-side `Contact` enum returned by `get_contacts`. -/
inductive Contact where
  | accepted (user_id : Int) (should_notify : Bool) (busy : Bool)
  | outgoing (user_id : Int)
  | incoming (user_id : Int) (should_notify : Bool)
deriving DecidableEq, Repr


/-- `Contact::user_id`, the peer id each variant carries. -/
def Contact.user_id : Contact → Int
  | .accepted u _ _ => u
  | .outgoing u => u
  | .incoming u _ => u


/-- The upsert guard of `send_contact_request` (db.rs:2316-2319), evaluated
on the existing conflicting row with the proposed (`excluded`) values
`(id_a, id_b, a_to_b)`. -/
def sendContactGuard (id_a id_b : Int) (a_to_b : Bool) (c : ContactRow) : Bool :=
  !c.accepted &&
    ((c.a_to_b == a_to_b && c.user_id_a == id_b) ||
     (c.a_to_b != a_to_b && c.user_id_a == id_a))


/-- The `INSERT … ON CONFLICT (user_id_a, user_id_b) DO UPDATE … WHERE …`
of `send_contact_request` (db.rs:2309-2333) on the canonical triple: with no
row for the key, a fresh unaccepted row is inserted (one row affected); on
conflict the guarded update flips the row to accepted with notification
cleared, and zero affected rows is reported as "contact already requested"
without committing. -/
def sendContactUpsert (id_a id_b : Int) (a_to_b : Bool) (db : Db) :
    Except Error (Db × Unit) :=
  if db.contacts.any (fun c => c.user_id_a == id_a && c.user_id_b == id_b) then
    let affected := (db.contacts.filter (fun c => (c.user_id_a == id_a && c.user_id_b == id_b) && sendContactGuard id_a id_b a_to_b c)).length
    let db1 := { db with contacts := db.contacts.map (fun c => if (c.user_id_a == id_a && c.user_id_b == id_b) && sendContactGuard id_a id_b a_to_b c then { c with accepted := true, should_notify := false } else c) }
    if affected == 1 then .ok (db1, ()) else .error (.message "contact already requested")
  else
    .ok ({ db with contacts := db.contacts ++ [⟨id_a, id_b, a_to_b, false, true⟩] }, ())


/-- `Db::send_contact_request` (db.rs:2302-2335): canonicalizes the pair as
`(min, max)` with `a_to_b` recording whether the sender is the smaller id,
then runs the guarded upsert. -/
def send_contact_request (sender_id receiver_id : Int) (db : Db) :
    Except Error (Db × Unit) :=
  if sender_id < receiver_id then sendContactUpsert sender_id receiver_id true db
  else sendContactUpsert receiver_id sender_id false db


/-- The per-row classification of `get_contacts` (db.rs:2222-2253). -/
def classifyContactRow (user_id : Int) (busy : Bool) (c : ContactRow) : Contact :=
  if c.user_id_a == user_id then
    if c.accepted then .accepted c.user_id_b (c.should_notify && c.a_to_b) busy
    else if c.a_to_b then .outgoing c.user_id_b
    else .incoming c.user_id_b c.should_notify
  else
    if c.accepted then .accepted c.user_id_a (c.should_notify && !c.a_to_b) busy
    else if c.a_to_b then .incoming c.user_id_a c.should_notify
    else .outgoing c.user_id_a


/-- `Db::get_contacts` (db.rs:2208-2260).  The SQL's LEFT JOIN condition is
`room_participants.user_id = $1` — it joins on the *querying* user's own
participant rows, so `busy` is whether the caller is in some room, and each
contact row is emitted once per matching join row (once, with a NULL join
and `busy = false`, when the caller has none).  The final
`sort_unstable_by_key(user_id)` is embedded as insertion sort on the peer
id.  The operation is read-only (its transaction is never committed). -/
def get_contacts (user_id : Int) (db : Db) : Except Error (List Contact) :=
  let caller_rows := db.room_participants.filter (fun p => p.user_id == user_id)
  let busy := !caller_rows.isEmpty
  let joined := db.contacts.filter (fun c => c.user_id_a == user_id || c.user_id_b == user_id)
  let rows := joined.flatMap (fun c => List.replicate (max caller_rows.length 1) (c, busy))
  let contacts := rows.map (fun rc => classifyContactRow user_id rc.2 rc.1)
  .ok (List.insertionSort (fun a b => a.user_id ≤ b.user_id) contacts)


/-! ## C2: replica-id uniqueness across share/join/leave sequences -/
/-- States reachable from a store with no shared projects (rooms and
participants arbitrary) by any sequence of successful `share_project`,
`join_project` and `leave_project` calls. -/
inductive Reachable : Db → Prop where
  | init (db : Db) : db.projects = [] → db.project_collaborators = [] →
      Reachable db
  | share (db : Db) (rid cid : Int) (ws : List WorktreeMetadata)
      (res : Db × (Int × RoomView)) :
      Reachable db → share_project rid cid ws db = .ok res → Reachable res.1
  | join (db : Db) (pid cid : Int) (res : Db × (Project × Int)) :
      Reachable db → join_project pid cid db = .ok res → Reachable res.1
  | leave (db : Db) (pid cid : Int) (res : Db × LeftProject) :
      Reachable db → leave_project pid cid db = .ok res → Reachable res.1


/-- The inductive invariant: project ids stay below the sequence counter,
every collaborator row points at an existing project, replica ids are
pairwise distinct within each project, and host rows carry replica id 0. -/
def ProjInv (db : Db) : Prop :=
  (∀ p ∈ db.projects, p.id < db.next_project_id) ∧
  (∀ c ∈ db.project_collaborators, ∃ p ∈ db.projects, p.id = c.project_id) ∧
  (∀ pid : Int, ((db.project_collaborators.filter (fun c => c.project_id == pid)).map (fun c => c.replica_id)).Nodup) ∧
  (∀ c ∈ db.project_collaborators, c.is_host = true → c.replica_id = 0)


/-- An initial state: one room with a joined participant, no projects. -/
def exDb2 : Db :=
  ⟨[⟨1, "r2"⟩], [⟨1, 100, some 3, 100, 3, none, none, none⟩],
   [], [], [], [], [], [], [], 1⟩


/-- Users 1 and 2 with no contact rows at all. -/
def exDb6 : Db := ⟨[], [], [], [], [], [], [], [], [], 1⟩


/-! ## C9: `get_contacts` classification, ordering and the busy flag -/
instance : IsTotal Contact (fun a b => a.user_id ≤ b.user_id) :=
  ⟨fun a b => le_total a.user_id b.user_id⟩


instance : IsTrans Contact (fun a b => a.user_id ≤ b.user_id) :=
  ⟨fun _ _ _ h1 h2 => le_trans h1 h2⟩


/-- Contact row (1,2) accepted; the peer (user 2) is joined in room 5 while
the querying user 1 is in no room. -/
def exDb9 : Db :=
  ⟨[⟨5, "r9"⟩], [⟨5, 2, some 8, 2, 8, none, none, none⟩],
   [], [], [], [], [], [],
   [⟨1, 2, true, true, false⟩], 1⟩


def exDb3b : Db :=
  ⟨[⟨1, "r3"⟩], [⟨1, 10, none, 3, 4, none, none, none⟩], [], [], [], [], [], [], [], 1⟩


theorem transactLoop_reaches {α : Type} (attempts : Nat → Except Error α)
    (i k : Nat) (hconf : ∀ j, j < k → retriesOutcome (attempts (i + j)) = true)
    (hstop : retriesOutcome (attempts (i + k)) = false) :
    ∀ fuel, k < fuel → transactLoop attempts i fuel = some (attempts (i + k)) := by
  induction k generalizing i with
  | zero =>
    intro fuel hfuel
    match fuel, hfuel with
    | fuel + 1, _ =>
      simp only [transactLoop]
      simp only [Nat.add_zero] at hstop
      simp [hstop]
  | succ k ih =>
    intro fuel hfuel
    match fuel, hfuel with
    | fuel + 1, hfuel =>
      have h0 : retriesOutcome (attempts (i + 0)) = true := hconf 0 (Nat.succ_pos k)
      simp only [Nat.add_zero] at h0
      simp only [transactLoop, h0, if_true]
      have hconf1 : ∀ j, j < k → retriesOutcome (attempts (i + 1 + j)) = true := by
        intro j hj
        have := hconf (j + 1) (Nat.succ_lt_succ hj)
        simpa [Nat.add_comm, Nat.add_assoc, Nat.add_left_comm] using this
      have hstop1 : retriesOutcome (attempts (i + 1 + k)) = false := by
        simpa [Nat.add_comm, Nat.add_assoc, Nat.add_left_comm] using hstop
      have := ih (i + 1) hconf1 hstop1 fuel (Nat.lt_of_succ_lt_succ hfuel)
      simpa [Nat.add_comm, Nat.add_assoc, Nat.add_left_comm] using this


theorem transactLoop_no_conflict_result {α : Type}
    (attempts : Nat → Except Error α) :
    ∀ i fuel r, transactLoop attempts i fuel = some r → retriesOutcome r = false := by
  intro i fuel
  induction fuel generalizing i with
  | zero => intro r h; simp [transactLoop] at h
  | succ fuel ih =>
    intro r h
    simp only [transactLoop] at h
    by_cases hc : retriesOutcome (attempts i) = true
    · rw [if_pos hc] at h
      exact ih (i + 1) r h
    · rw [if_neg hc] at h
      cases h
      exact eq_false_of_ne_true hc


/-- C1: `transact(f)` (db.rs:2507-2552) re-invokes the closure from scratch
on every serialization-conflict failure (error code "40001") with no retry
limit, returns the first non-conflict outcome — in particular a non-conflict
error is returned immediately, after a single invocation — and never returns
a serialization-conflict error to the caller. -/
theorem c1_transact_retry (α : Type) (attempts : Nat → Except Error α) (n : Nat)
    (hconf : ∀ j, j < n → retriesOutcome (attempts j) = true)
    (hstop : retriesOutcome (attempts n) = false) :
    (∀ fuel, n < fuel → transactLoop attempts 0 fuel = some (attempts n)) ∧
    (∀ fuel r, transactLoop attempts 0 fuel = some r →
      ∀ e : Error, r = .error e → isSerializationConflict e = false) ∧
    (∀ e : Error, attempts 0 = .error e → isSerializationConflict e = false →
      transactLoop attempts 0 1 = some (.error e)) := by
  refine ⟨?_, ?_, ?_⟩
  · intro fuel hfuel
    have := transactLoop_reaches attempts 0 n
      (by intro j hj; simpa using hconf j hj) (by simpa using hstop) fuel hfuel
    simpa using this
  · intro fuel r h e hr
    have := transactLoop_no_conflict_result attempts 0 fuel r h
    rw [hr] at this
    simpa [retriesOutcome] using this
  · intro e h0 hc
    simp [transactLoop, retriesOutcome, h0, hc]


theorem c1_transact_retry_witness :
    (∀ j, j < 2 → retriesOutcome (exAttempts j) = true) ∧
    transactLoop exAttempts 0 3 = some (Except.ok 42) := by
  refine ⟨by decide, ?_⟩
  have h := c1_transact_retry Nat exAttempts 2 (by decide) (by decide)
  have := h.1 3 (by decide)
  simpa [exAttempts] using this


/-! ## Success condition of `get_room` -/
theorem get_room_ok_iff (room_id : Int) (db : Db) :
    (∃ v, get_room room_id db = Except.ok v) ↔ ∃ r ∈ db.rooms, r.id = room_id := by
  unfold get_room
  cases hf : db.rooms.filter (fun r => r.id == room_id) with
  | nil =>
    simp only [hf, List.head?_nil]
    constructor
    · rintro ⟨v, hv⟩; cases hv
    · rintro ⟨r, hr, hid⟩
      have hmem : r ∈ db.rooms.filter (fun r => r.id == room_id) := by
        rw [List.mem_filter]; exact ⟨hr, by simp [hid]⟩
      rw [hf] at hmem; cases hmem
  | cons r rest =>
    simp only [hf, List.head?_cons]
    constructor
    · intro _
      have hmem : r ∈ db.rooms.filter (fun r => r.id == room_id) := by
        rw [hf]; exact List.mem_cons_self r rest
      rw [List.mem_filter] at hmem
      exact ⟨r, hmem.1, by simpa using hmem.2⟩
    · intro _
      exact ⟨_, rfl⟩


/-! ## C7: expected-room mismatch aborts without partial mutation -/
/-- C7: when `decline_call` or `cancel_call` is given an expected room id
that differs from the room of the pending row the delete matched, the
operation returns the corresponding error and the database state is
unchanged — the delete that ran inside the transaction is rolled back
because the transaction is never committed (db.rs:1074-1127). -/
theorem c7_room_mismatch_rolls_back (db : Db)
    (expected user_id calling_connection_id : Int) :
    (∀ row, (db.room_participants.filter (isPendingRowFor user_id)).head? = some row →
      row.room_id ≠ expected →
      applyTx (decline_call (some expected) user_id) db =
        (db, .error (.message "declining call on unexpected room"))) ∧
    (∀ row, (db.room_participants.filter
        (isPendingCallBy user_id calling_connection_id)).head? = some row →
      row.room_id ≠ expected →
      applyTx (cancel_call (some expected) calling_connection_id user_id) db =
        (db, .error (.message "canceling call on unexpected room"))) := by
  constructor
  · intro row hhead hne
    have hmis : (Option.some expected).any (fun e => e != row.room_id) = true := by
      simp [Option.any, bne_iff_ne]
      exact fun h => hne h.symm
    simp [applyTx, decline_call, hhead, hmis]
  · intro row hhead hne
    have hmis : (Option.some expected).any (fun e => e != row.room_id) = true := by
      simp [Option.any, bne_iff_ne]
      exact fun h => hne h.symm
    simp [applyTx, cancel_call, hhead, hmis]


theorem c7_room_mismatch_witness :
    applyTx (decline_call (some 2) 10) exDb7 =
      (exDb7, .error (.message "declining call on unexpected room")) ∧
    applyTx (cancel_call (some 2) 4 10) exDb7 =
      (exDb7, .error (.message "canceling call on unexpected room")) :=
  ⟨(c7_room_mismatch_rolls_back exDb7 2 10 4).1 exPendingRow (by decide) (by decide),
   (c7_room_mismatch_rolls_back exDb7 2 10 4).2 exPendingRow (by decide) (by decide)⟩


/-- C8 counterexample: the only participant row for (room 1, user 2) is
Joined (`answering_connection_id` is set), yet `call_failed 1 2` deletes it
— the claim that a Joined row is left in place is false. -/
theorem c8_counterexample :
    exDb8.room_participants = [exJoinedRow8] ∧
    exJoinedRow8.answering_connection_id.isSome = true ∧
    (call_failed 1 2 exDb8).toOption.map (fun r => r.1.room_participants) =
      some [] := by
  refine ⟨rfl, rfl, ?_⟩
  decide


/-- C8 (amended): `call_failed(room, callee_user)` deletes every participant
row for that room and user — pending or joined alike (its DELETE carries no
`answering_connection_id IS NULL` condition) — and leaves all other rows and
tables unchanged; it succeeds whenever the room row exists. -/
theorem c8_call_failed_deletes_matched_rows (room_id called_user_id : Int)
    (db : Db) (hroom : ∃ r ∈ db.rooms, r.id = room_id) :
    ∃ db1 view, call_failed room_id called_user_id db = .ok (db1, view) ∧
      (∀ p ∈ db1.room_participants,
        p ∈ db.room_participants ∧ ¬(p.room_id = room_id ∧ p.user_id = called_user_id)) ∧
      (∀ p ∈ db.room_participants,
        ¬(p.room_id = room_id ∧ p.user_id = called_user_id) → p ∈ db1.room_participants) ∧
      db1.rooms = db.rooms ∧ db1.projects = db.projects ∧
      db1.project_collaborators = db.project_collaborators ∧
      db1.worktrees = db.worktrees ∧ db1.contacts = db.contacts := by
  obtain ⟨v, hv⟩ :=
    (get_room_ok_iff room_id (deleteRoomUserParticipants room_id called_user_id db)).mpr hroom
  refine ⟨deleteRoomUserParticipants room_id called_user_id db, v, ?_, ?_, ?_,
    rfl, rfl, rfl, rfl, rfl⟩
  · simp only [call_failed, hv]
  · intro p hp
    unfold deleteRoomUserParticipants at hp
    simp only [List.mem_filter] at hp
    refine ⟨hp.1, ?_⟩
    rintro ⟨h1, h2⟩
    have h3 := hp.2
    simp [h1, h2] at h3
  · intro p hp hnot
    unfold deleteRoomUserParticipants
    simp only [List.mem_filter]
    refine ⟨hp, ?_⟩
    by_cases h1 : p.room_id = room_id
    · by_cases h2 : p.user_id = called_user_id
      · exact absurd ⟨h1, h2⟩ hnot
      · simp [h1, h2]
    · simp [h1]


theorem c8_call_failed_witness :
    ∃ db1 view, call_failed 1 2 exDb8 = .ok (db1, view) ∧
      (∀ p ∈ db1.room_participants,
        p ∈ exDb8.room_participants ∧ ¬(p.room_id = 1 ∧ p.user_id = 2)) ∧
      (∀ p ∈ exDb8.room_participants,
        ¬(p.room_id = 1 ∧ p.user_id = 2) → p ∈ db1.room_participants) ∧
      db1.rooms = exDb8.rooms ∧ db1.projects = exDb8.projects ∧
      db1.project_collaborators = exDb8.project_collaborators ∧
      db1.worktrees = exDb8.worktrees ∧ db1.contacts = exDb8.contacts :=
  c8_call_failed_deletes_matched_rows 1 2 exDb8 (by decide)


/-- C3 counterexample: no Pending row exists for (room 1, user 10) — the
only row is already Joined — yet `join_room 1 10 7` succeeds, overwriting
the joined row's answering connection from 5 to 7.  This falsifies both
"fails exactly when no Pending row exists" and "does not succeed by
modifying a row that is already Joined". -/
theorem c3_counterexample :
    exDb3.room_participants.filter
      (fun p => p.room_id == 1 && p.user_id == 10 &&
        p.answering_connection_id == none) = [] ∧
    (join_room 1 10 7 exDb3).toOption.map
      (fun r => r.1.room_participants.map (fun p => p.answering_connection_id)) =
      some [some 7] := by
  refine ⟨rfl, ?_⟩
  decide


/-- C3 (amended): given that the room row exists, `join_room` succeeds
exactly when some participant row — pending *or already joined* — exists for
that user and room (the UPDATE matches on `room_id` and `user_id` only), and
on success it sets `answering_connection_id` on every such row, leaving all
other rows and tables unchanged. -/
theorem c3_join_room_amended (room_id user_id connection_id : Int) (db : Db)
    (hroom : ∃ r ∈ db.rooms, r.id = room_id) :
    ((∃ res, join_room room_id user_id connection_id db = .ok res) ↔
      ∃ p ∈ db.room_participants, p.room_id = room_id ∧ p.user_id = user_id) ∧
    (∀ db1 view, join_room room_id user_id connection_id db = .ok (db1, view) →
      (∀ p ∈ db1.room_participants, p.room_id = room_id → p.user_id = user_id →
        p.answering_connection_id = some connection_id) ∧
      (∀ p ∈ db.room_participants, ¬(p.room_id = room_id ∧ p.user_id = user_id) →
        p ∈ db1.room_participants) ∧
      db1.rooms = db.rooms ∧ db1.projects = db.projects ∧
      db1.project_collaborators = db.project_collaborators ∧
      db1.contacts = db.contacts) := by
  constructor
  · by_cases hempty : (db.room_participants.filter
        (fun p => p.room_id == room_id && p.user_id == user_id)).isEmpty
    · rw [List.isEmpty_iff] at hempty
      constructor
      · rintro ⟨res, hres⟩
        unfold join_room at hres
        rw [if_pos (by rw [List.isEmpty_iff]; exact hempty)] at hres
        cases hres
      · rintro ⟨p, hp, hrid, huid⟩
        have hmem : p ∈ db.room_participants.filter
            (fun p => p.room_id == room_id && p.user_id == user_id) := by
          rw [List.mem_filter]; exact ⟨hp, by simp [hrid, huid]⟩
        rw [hempty] at hmem; cases hmem
    · have hne : db.room_participants.filter
          (fun p => p.room_id == room_id && p.user_id == user_id) ≠ [] := by
        intro hnil
        rw [← List.isEmpty_iff] at hnil
        exact hempty hnil
      obtain ⟨q, rest, hq⟩ := List.exists_cons_of_ne_nil hne
      have hqmem : q ∈ db.room_participants.filter
          (fun p => p.room_id == room_id && p.user_id == user_id) := by
        rw [hq]; exact List.mem_cons_self q rest
      rw [List.mem_filter] at hqmem
      constructor
      · intro _
        refine ⟨q, hqmem.1, ?_⟩
        have := hqmem.2
        simp only [Bool.and_eq_true, beq_iff_eq] at this
        exact this
      · intro _
        obtain ⟨v, hv⟩ :=
          (get_room_ok_iff room_id (setAnsweringConnection room_id user_id connection_id db)).mpr hroom
        refine ⟨(setAnsweringConnection room_id user_id connection_id db, v), ?_⟩
        unfold join_room
        rw [if_neg hempty]
        simp only [hv]
  · intro db1 view h
    unfold join_room at h
    by_cases hempty : (db.room_participants.filter
        (fun p => p.room_id == room_id && p.user_id == user_id)).isEmpty
    · rw [if_pos hempty] at h; cases h
    · rw [if_neg hempty] at h
      cases hget : get_room room_id (setAnsweringConnection room_id user_id connection_id db) with
      | error e => simp only [hget] at h; cases h
      | ok room =>
        simp only [hget, Except.ok.injEq, Prod.mk.injEq] at h
        obtain ⟨hdb, hview⟩ := h
        subst hdb
        refine ⟨?_, ?_, rfl, rfl, rfl, rfl⟩
        · intro p hp hrid huid
          unfold setAnsweringConnection at hp
          simp only [List.mem_map] at hp
          obtain ⟨q, _, hq⟩ := hp
          by_cases hmatch : q.room_id == room_id && q.user_id == user_id
          · rw [if_pos hmatch] at hq
            rw [← hq]
          · rw [if_neg hmatch] at hq
            exfalso
            apply hmatch
            rw [← hq] at hrid huid
            simp [hrid, huid]
        · intro p hp hnot
          unfold setAnsweringConnection
          simp only [List.mem_map]
          refine ⟨p, hp, ?_⟩
          rw [if_neg ?_]
          intro hmatch
          simp only [Bool.and_eq_true, beq_iff_eq] at hmatch
          exact hnot hmatch


/-! ## Characterization of the replica-id scan -/
theorem pickReplicaIdAux_spec (used : List Int) :
    ∀ (fuel : Nat) (r : Int), (∃ m : Int, r ≤ m ∧ m < r + fuel ∧ m ∉ used) →
      pickReplicaIdAux used fuel r ∉ used ∧ r ≤ pickReplicaIdAux used fuel r ∧
        ∀ m : Int, r ≤ m → m < pickReplicaIdAux used fuel r → m ∈ used := by
  intro fuel
  induction fuel with
  | zero =>
    rintro r ⟨m, h1, h2, _⟩
    exfalso
    push_cast at h2
    omega
  | succ fuel ih =>
    rintro r ⟨m, hrm, hm, hmfree⟩
    by_cases hr : r ∈ used
    · have hmr : m ≠ r := fun hEq => hmfree (hEq ▸ hr)
      have hrecur := ih (r + 1) ⟨m, by omega, by push_cast at hm ⊢; omega, hmfree⟩
      have hstep : pickReplicaIdAux used (fuel + 1) r = pickReplicaIdAux used fuel (r + 1) := by
        simp [pickReplicaIdAux, hr]
      rw [hstep]
      refine ⟨hrecur.1, le_trans (by omega) hrecur.2.1, ?_⟩
      intro m1 hm1 hm2
      by_cases hm1r : m1 = r
      · rw [hm1r]; exact hr
      · exact hrecur.2.2 m1 (by omega) hm2
    · have hstep : pickReplicaIdAux used (fuel + 1) r = r := by
        simp [pickReplicaIdAux, hr]
      rw [hstep]
      exact ⟨hr, le_refl r, fun m1 hm1 hm2 => absurd hm2 (by omega)⟩


theorem pickReplicaId_spec (used : List Int) :
    pickReplicaId used ∉ used ∧ 1 ≤ pickReplicaId used ∧
      ∀ m : Int, 1 ≤ m → m < pickReplicaId used → m ∈ used := by
  have hfree : ∃ m : Int, 1 ≤ m ∧ m < 1 + ((used.length + 1 : Nat) : Int) ∧ m ∉ used := by
    by_contra hall
    push_neg at hall
    have hsub : Finset.Icc (1 : Int) (used.length + 1) ⊆ used.toFinset := by
      intro m hm
      rw [Finset.mem_Icc] at hm
      rw [List.mem_toFinset]
      apply hall m hm.1
      push_cast
      omega
    have hcard := Finset.card_le_card hsub
    rw [Int.card_Icc] at hcard
    have hle := used.toFinset_card_le
    omega
  exact pickReplicaIdAux_spec used (used.length + 1) 1 hfree


/-! ## C4: smallest free replica id -/
/-- C4: under `join_project`'s preconditions (the connection has a joined
participant row and the project was shared on that room), the operation
succeeds, and the assigned replica id `r` is the smallest positive integer
not held by any current collaborator of the project; the returned snapshot
carries the project's collaborators extended by the new non-host row with
replica id `r`, which is also the row inserted into the store. -/
theorem c4_join_project_min_replica (project_id connection_id : Int) (db : Db)
    (part : RoomParticipant)
    (hpart : (db.room_participants.filter (fun p => p.answering_connection_id == some connection_id)).head? = some part)
    (hproj : db.projects.any (fun p => p.id == project_id && p.room_id == part.room_id) = true) :
    (∃ res, join_project project_id connection_id db = .ok res) ∧
    (∀ db1 snap r, join_project project_id connection_id db = .ok (db1, (snap, r)) →
      1 ≤ r ∧
      r ∉ (db.project_collaborators.filter (fun c => c.project_id == project_id)).map (fun c => c.replica_id) ∧
      (∀ m : Int, 1 ≤ m → m < r →
        m ∈ (db.project_collaborators.filter (fun c => c.project_id == project_id)).map (fun c => c.replica_id)) ∧
      snap.collaborators = db.project_collaborators.filter (fun c => c.project_id == project_id) ++ [⟨project_id, connection_id, part.user_id, r, false⟩] ∧
      db1.project_collaborators = db.project_collaborators ++ [⟨project_id, connection_id, part.user_id, r, false⟩] ∧
      db1.projects = db.projects ∧ db1.worktrees = db.worktrees ∧
      db1.rooms = db.rooms ∧ db1.room_participants = db.room_participants) := by
  have hstep : join_project project_id connection_id db =
      .ok ({ db with project_collaborators := db.project_collaborators ++ [⟨project_id, connection_id, part.user_id, pickReplicaId ((db.project_collaborators.filter (fun c => c.project_id == project_id)).map (fun c => c.replica_id)), false⟩] },
        (joinProjectSnapshot project_id { db with project_collaborators := db.project_collaborators ++ [⟨project_id, connection_id, part.user_id, pickReplicaId ((db.project_collaborators.filter (fun c => c.project_id == project_id)).map (fun c => c.replica_id)), false⟩] } (db.project_collaborators.filter (fun c => c.project_id == project_id) ++ [⟨project_id, connection_id, part.user_id, pickReplicaId ((db.project_collaborators.filter (fun c => c.project_id == project_id)).map (fun c => c.replica_id)), false⟩]),
         pickReplicaId ((db.project_collaborators.filter (fun c => c.project_id == project_id)).map (fun c => c.replica_id)))) := by
    unfold join_project
    simp only [hpart, hproj, Bool.not_true, Bool.false_eq_true, if_false]
  have hspec := pickReplicaId_spec ((db.project_collaborators.filter (fun c => c.project_id == project_id)).map (fun c => c.replica_id))
  refine ⟨⟨_, hstep⟩, ?_⟩
  intro db1 snap r h
  rw [hstep, Except.ok.injEq, Prod.mk.injEq, Prod.mk.injEq] at h
  obtain ⟨hdb, hsnap, hr⟩ := h
  subst hdb
  subst hsnap
  subst hr
  exact ⟨hspec.2.1, hspec.1, hspec.2.2, rfl, rfl, rfl, rfl, rfl, rfl⟩


theorem c4_join_project_witness :
    (∃ res, join_project 1 7 exDb4 = .ok res) ∧
    (∀ db1 snap r, join_project 1 7 exDb4 = .ok (db1, (snap, r)) →
      1 ≤ r ∧
      r ∉ (exDb4.project_collaborators.filter (fun c => c.project_id == 1)).map (fun c => c.replica_id) ∧
      (∀ m : Int, 1 ≤ m → m < r →
        m ∈ (exDb4.project_collaborators.filter (fun c => c.project_id == 1)).map (fun c => c.replica_id)) ∧
      snap.collaborators = exDb4.project_collaborators.filter (fun c => c.project_id == 1) ++ [⟨1, 7, 300, r, false⟩] ∧
      db1.project_collaborators = exDb4.project_collaborators ++ [⟨1, 7, 300, r, false⟩] ∧
      db1.projects = exDb4.projects ∧ db1.worktrees = exDb4.worktrees ∧
      db1.rooms = exDb4.rooms ∧ db1.room_participants = exDb4.room_participants) :=
  c4_join_project_min_replica 1 7 exDb4 ⟨1, 300, some 7, 100, 3, none, none, none⟩
    (by decide) (by decide)


/-! ## C10: `leave_project` deletes exactly the leaver's collaborator row -/
theorem length_filter_not_add {α : Type} (p : α → Bool) (l : List α) :
    (l.filter (fun a => !(p a))).length + (l.filter p).length = l.length := by
  induction l with
  | nil => rfl
  | cons a t ih =>
    cases h : p a <;> simp [List.filter_cons, h] <;> omega


/-- C10: when the connection has exactly one collaborator row on the
project (host or guest alike), `leave_project` succeeds and the committed
state differs from the original only by the deletion of that row: the
project row, worktrees, worktree entries, diagnostic summaries, language
servers, rooms, participants and every other collaborator row are
unchanged.  (In particular a leaving host leaves the project in place with
no host collaborator row.) -/
theorem c10_leave_project_frame (project_id connection_id : Int) (db : Db)
    (c0 : ProjectCollaborator) (proj : ProjectRow)
    (hone : db.project_collaborators.filter (fun c => c.project_id == project_id && c.connection_id == connection_id) = [c0])
    (hproj : (db.projects.filter (fun p => p.id == project_id)).head? = some proj) :
    leave_project project_id connection_id db =
      .ok (deleteProjectCollaborator project_id connection_id db,
        ⟨project_id, proj.host_user_id, proj.host_connection_id,
          ((deleteProjectCollaborator project_id connection_id db).project_collaborators.filter (fun c => c.project_id == project_id)).map (fun c => c.connection_id)⟩) ∧
    (deleteProjectCollaborator project_id connection_id db).projects = db.projects ∧
    (deleteProjectCollaborator project_id connection_id db).worktrees = db.worktrees ∧
    (deleteProjectCollaborator project_id connection_id db).worktree_entries = db.worktree_entries ∧
    (deleteProjectCollaborator project_id connection_id db).diagnostic_summaries = db.diagnostic_summaries ∧
    (deleteProjectCollaborator project_id connection_id db).language_servers = db.language_servers ∧
    (deleteProjectCollaborator project_id connection_id db).rooms = db.rooms ∧
    (deleteProjectCollaborator project_id connection_id db).room_participants = db.room_participants ∧
    (deleteProjectCollaborator project_id connection_id db).project_collaborators.length + 1 = db.project_collaborators.length ∧
    (∀ c ∈ db.project_collaborators, ¬(c.project_id = project_id ∧ c.connection_id = connection_id) →
      c ∈ (deleteProjectCollaborator project_id connection_id db).project_collaborators) := by
  refine ⟨?_, rfl, rfl, rfl, rfl, rfl, rfl, rfl, ?_, ?_⟩
  · unfold leave_project
    rw [hone]
    simp only [List.length_cons, List.length_nil]
    rw [show ((0 + 1 : Nat) == 0) = false from rfl]
    simp only [Bool.false_eq_true, if_false]
    unfold deleteProjectCollaborator
    rw [hproj]
  · have hlen := length_filter_not_add (fun c => c.project_id == project_id && c.connection_id == connection_id) db.project_collaborators
    rw [hone] at hlen
    unfold deleteProjectCollaborator
    simpa using hlen
  · intro c hc hnot
    unfold deleteProjectCollaborator
    simp only [List.mem_filter]
    refine ⟨hc, ?_⟩
    by_cases h1 : c.project_id = project_id
    · by_cases h2 : c.connection_id = connection_id
      · exact absurd ⟨h1, h2⟩ hnot
      · simp [h1, h2]
    · simp [h1]


theorem c10_leave_project_witness :
    leave_project 1 3 exDb10 =
      .ok (deleteProjectCollaborator 1 3 exDb10,
        ⟨1, (⟨1, 1, 100, 3⟩ : ProjectRow).host_user_id, (⟨1, 1, 100, 3⟩ : ProjectRow).host_connection_id,
          ((deleteProjectCollaborator 1 3 exDb10).project_collaborators.filter (fun c => c.project_id == 1)).map (fun c => c.connection_id)⟩) ∧
    (deleteProjectCollaborator 1 3 exDb10).projects = exDb10.projects ∧
    (deleteProjectCollaborator 1 3 exDb10).worktrees = exDb10.worktrees ∧
    (deleteProjectCollaborator 1 3 exDb10).worktree_entries = exDb10.worktree_entries ∧
    (deleteProjectCollaborator 1 3 exDb10).diagnostic_summaries = exDb10.diagnostic_summaries ∧
    (deleteProjectCollaborator 1 3 exDb10).language_servers = exDb10.language_servers ∧
    (deleteProjectCollaborator 1 3 exDb10).rooms = exDb10.rooms ∧
    (deleteProjectCollaborator 1 3 exDb10).room_participants = exDb10.room_participants ∧
    (deleteProjectCollaborator 1 3 exDb10).project_collaborators.length + 1 = exDb10.project_collaborators.length ∧
    (∀ c ∈ exDb10.project_collaborators, ¬(c.project_id = 1 ∧ c.connection_id = 3) →
      c ∈ (deleteProjectCollaborator 1 3 exDb10).project_collaborators) :=
  c10_leave_project_frame 1 3 exDb10 ⟨1, 3, 100, 0, true⟩ ⟨1, 1, 100, 3⟩
    (by decide) (by decide)


/-! ## C5: `update_project` replaces the worktree set by diff -/
theorem upsert_preserves_other_projects (pid : Int) (w : WorktreeMetadata)
    (rows : List WorktreeRow) :
    (upsertWorktree pid w rows).filter (fun r => !(r.project_id == pid)) =
      rows.filter (fun r => !(r.project_id == pid)) := by
  unfold upsertWorktree
  by_cases hany : rows.any (fun r => r.project_id == pid && r.id == w.id) = true
  · rw [if_pos hany]
    clear hany
    induction rows with
    | nil => rfl
    | cons a t ih =>
      simp only [List.map_cons, List.filter_cons]
      by_cases hm : (a.project_id == pid && a.id == w.id) = true
      · have hpid : a.project_id = pid := by
          simp only [Bool.and_eq_true, beq_iff_eq] at hm
          exact hm.1
        rw [if_pos hm]
        dsimp only
        have hq : (!(a.project_id == pid)) = false := by simp [hpid]
        rw [hq]
        simp only [Bool.false_eq_true, if_false]
        exact ih
      · rw [if_neg hm]
        by_cases hq : (!(a.project_id == pid)) = true
        · rw [if_pos hq, if_pos hq, ih]
        · rw [if_neg hq, if_neg hq, ih]
  · rw [if_neg hany, List.filter_append]
    simp


theorem fold_upsert_preserves_other_projects (pid : Int)
    (ws : List WorktreeMetadata) (rows : List WorktreeRow) :
    (ws.foldl (fun rows w => upsertWorktree pid w rows) rows).filter (fun r => !(r.project_id == pid)) =
      rows.filter (fun r => !(r.project_id == pid)) := by
  induction ws generalizing rows with
  | nil => rfl
  | cons w tail ih =>
    rw [List.foldl_cons, ih, upsert_preserves_other_projects]


theorem delete_preserves_other_projects (pid : Int) (ids : List Int)
    (rows : List WorktreeRow) :
    (rows.filter (fun r => !(r.project_id == pid && !(ids.contains r.id)))).filter (fun r => !(r.project_id == pid)) =
      rows.filter (fun r => !(r.project_id == pid)) := by
  induction rows with
  | nil => rfl
  | cons a t ih =>
    simp only [List.filter_cons]
    by_cases hp : (a.project_id == pid) = true
    · have hq : (!(a.project_id == pid)) = false := by rw [hp]; rfl
      by_cases hd : (!(a.project_id == pid && !(ids.contains a.id))) = true
      · rw [if_pos hd, List.filter_cons, hq]
        simp only [Bool.false_eq_true, if_false]
        exact ih
      · rw [if_neg hd, hq]
        simp only [Bool.false_eq_true, if_false]
        exact ih
    · have hfalse : (a.project_id == pid) = false := by simpa using hp
      have hd : (!(a.project_id == pid && !(ids.contains a.id))) = true := by
        rw [hfalse]; rfl
      have hq : (!(a.project_id == pid)) = true := by rw [hfalse]; rfl
      rw [if_pos hd, List.filter_cons, if_pos hq, if_pos hq, ih]


theorem upsert_key_root (pid : Int) (w : WorktreeMetadata)
    (rows : List WorktreeRow) :
    ∃ r ∈ upsertWorktree pid w rows,
      r.project_id = pid ∧ r.id = w.id ∧ r.root_name = w.root_name := by
  unfold upsertWorktree
  by_cases hany : rows.any (fun r => r.project_id == pid && r.id == w.id) = true
  · rw [if_pos hany]
    rw [List.any_eq_true] at hany
    obtain ⟨r, hr, hm⟩ := hany
    have hm1 : r.project_id = pid ∧ r.id = w.id := by
      simp only [Bool.and_eq_true, beq_iff_eq] at hm
      exact hm
    refine ⟨{ r with root_name := w.root_name }, ?_, hm1.1, hm1.2, rfl⟩
    rw [List.mem_map]
    exact ⟨r, hr, by rw [if_pos hm]⟩
  · rw [if_neg hany]
    exact ⟨⟨pid, w.id, w.root_name, w.abs_path, w.visible, 0, false⟩, by simp, rfl, rfl, rfl⟩


theorem upsert_preserves_key (pid : Int) (w1 : WorktreeMetadata)
    (rows : List WorktreeRow) (i : Int)
    (h : ∃ r ∈ rows, r.project_id = pid ∧ r.id = i) :
    ∃ r ∈ upsertWorktree pid w1 rows, r.project_id = pid ∧ r.id = i := by
  obtain ⟨r, hr, h1, h2⟩ := h
  unfold upsertWorktree
  by_cases hany : rows.any (fun r => r.project_id == pid && r.id == w1.id) = true
  · rw [if_pos hany]
    by_cases hm : (r.project_id == pid && r.id == w1.id) = true
    · refine ⟨{ r with root_name := w1.root_name }, ?_, h1, h2⟩
      rw [List.mem_map]
      exact ⟨r, hr, by rw [if_pos hm]⟩
    · refine ⟨r, ?_, h1, h2⟩
      rw [List.mem_map]
      exact ⟨r, hr, by rw [if_neg hm]⟩
  · rw [if_neg hany]
    exact ⟨r, List.mem_append_left _ hr, h1, h2⟩


theorem upsert_preserves_key_root (pid : Int) (w1 : WorktreeMetadata)
    (rows : List WorktreeRow) (i : Int) (name : String) (hne : w1.id ≠ i)
    (h : ∃ r ∈ rows, r.project_id = pid ∧ r.id = i ∧ r.root_name = name) :
    ∃ r ∈ upsertWorktree pid w1 rows,
      r.project_id = pid ∧ r.id = i ∧ r.root_name = name := by
  obtain ⟨r, hr, h1, h2, h3⟩ := h
  unfold upsertWorktree
  by_cases hany : rows.any (fun r => r.project_id == pid && r.id == w1.id) = true
  · rw [if_pos hany]
    refine ⟨r, ?_, h1, h2, h3⟩
    rw [List.mem_map]
    refine ⟨r, hr, ?_⟩
    rw [if_neg ?_]
    intro hm
    simp only [Bool.and_eq_true, beq_iff_eq] at hm
    rw [h2] at hm
    exact hne hm.2.symm
  · rw [if_neg hany]
    exact ⟨r, List.mem_append_left _ hr, h1, h2, h3⟩


theorem fold_upsert_preserves_key (pid : Int) (ws : List WorktreeMetadata)
    (rows : List WorktreeRow) (i : Int)
    (h : ∃ r ∈ rows, r.project_id = pid ∧ r.id = i) :
    ∃ r ∈ ws.foldl (fun rows w => upsertWorktree pid w rows) rows,
      r.project_id = pid ∧ r.id = i := by
  induction ws generalizing rows with
  | nil => exact h
  | cons w0 tail ih =>
    rw [List.foldl_cons]
    exact ih (upsertWorktree pid w0 rows) (upsert_preserves_key pid w0 rows i h)


theorem fold_upsert_preserves_key_root (pid : Int) (ws : List WorktreeMetadata) :
    ∀ (rows : List WorktreeRow) (i : Int) (name : String),
      (∀ w ∈ ws, w.id ≠ i) →
      (∃ r ∈ rows, r.project_id = pid ∧ r.id = i ∧ r.root_name = name) →
      ∃ r ∈ ws.foldl (fun rows w => upsertWorktree pid w rows) rows,
        r.project_id = pid ∧ r.id = i ∧ r.root_name = name := by
  induction ws with
  | nil => intro rows i name _ h; exact h
  | cons w0 tail ih =>
    intro rows i name hne h
    rw [List.foldl_cons]
    exact ih (upsertWorktree pid w0 rows) i name
      (fun w hw => hne w (List.mem_cons_of_mem w0 hw))
      (upsert_preserves_key_root pid w0 rows i name (hne w0 (List.mem_cons_self w0 tail)) h)


theorem fold_upsert_key (pid : Int) (ws : List WorktreeMetadata)
    (rows : List WorktreeRow) :
    ∀ w ∈ ws, ∃ r ∈ ws.foldl (fun rows w => upsertWorktree pid w rows) rows,
      r.project_id = pid ∧ r.id = w.id := by
  induction ws generalizing rows with
  | nil => intro w hw; cases hw
  | cons w0 tail ih =>
    intro w hw
    rw [List.foldl_cons]
    rcases List.mem_cons.mp hw with heq | htail
    · subst heq
      obtain ⟨r, hr, h1, h2, _⟩ := upsert_key_root pid w rows
      exact fold_upsert_preserves_key pid tail _ w.id ⟨r, hr, h1, h2⟩
    · exact ih (upsertWorktree pid w0 rows) w htail


theorem fold_upsert_root (pid : Int) (ws : List WorktreeMetadata) :
    ∀ (rows : List WorktreeRow), (ws.map (fun w => w.id)).Nodup →
      ∀ w ∈ ws, ∃ r ∈ ws.foldl (fun rows w => upsertWorktree pid w rows) rows,
        r.project_id = pid ∧ r.id = w.id ∧ r.root_name = w.root_name := by
  induction ws with
  | nil => intro rows _ w hw; cases hw
  | cons w0 tail ih =>
    intro rows hnodup w hw
    rw [List.foldl_cons]
    rw [List.map_cons, List.nodup_cons] at hnodup
    rcases List.mem_cons.mp hw with heq | htail
    · subst heq
      have hnotin : ∀ w1 ∈ tail, w1.id ≠ w.id := by
        intro w1 hw1 hEq
        exact hnodup.1 (List.mem_map.mpr ⟨w1, hw1, hEq⟩)
      exact fold_upsert_preserves_key_root pid tail _ w.id w.root_name hnotin
        (upsert_key_root pid w rows)
    · exact ih (upsertWorktree pid w0 rows) hnodup.2 w htail


/-- C5: under `update_project`'s preconditions (the caller hosts the
project and the room row exists), the call succeeds, and the stored
worktree id set of the project becomes exactly the ids of the supplied
metadata list (empty list included): ids present keep a row (with the
supplied root name, when the supplied ids are distinct), ids absent from
the list are deleted, and rows of every other project — and every other
table — are untouched. -/
theorem c5_update_project_replaces_worktrees (project_id connection_id : Int)
    (ws : List WorktreeMetadata) (db : Db) (proj : ProjectRow)
    (hhost : (db.projects.filter (fun p => p.id == project_id && p.host_connection_id == connection_id)).head? = some proj)
    (hroom : ∃ r ∈ db.rooms, r.id = proj.room_id) :
    (∃ res, update_project project_id connection_id ws db = .ok res) ∧
    (∀ db2 res, update_project project_id connection_id ws db = .ok (db2, res) →
      (∀ r ∈ db2.worktrees, r.project_id = project_id → r.id ∈ ws.map (fun w => w.id)) ∧
      (∀ w ∈ ws, ∃ r ∈ db2.worktrees, r.project_id = project_id ∧ r.id = w.id) ∧
      ((ws.map (fun w => w.id)).Nodup →
        ∀ w ∈ ws, ∃ r ∈ db2.worktrees, r.project_id = project_id ∧ r.id = w.id ∧ r.root_name = w.root_name) ∧
      db2.worktrees.filter (fun r => !(r.project_id == project_id)) = db.worktrees.filter (fun r => !(r.project_id == project_id)) ∧
      db2.projects = db.projects ∧ db2.project_collaborators = db.project_collaborators ∧
      db2.rooms = db.rooms ∧ db2.room_participants = db.room_participants ∧
      db2.worktree_entries = db.worktree_entries ∧ db2.contacts = db.contacts) := by
  obtain ⟨v, hv⟩ := (get_room_ok_iff proj.room_id { db with worktrees := updateProjectWorktrees project_id ws db.worktrees }).mpr hroom
  have hstep : update_project project_id connection_id ws db =
      .ok ({ db with worktrees := updateProjectWorktrees project_id ws db.worktrees },
        (v, get_guest_connection_ids project_id { db with worktrees := updateProjectWorktrees project_id ws db.worktrees })) := by
    unfold update_project
    simp only [hhost, hv]
  refine ⟨⟨_, hstep⟩, ?_⟩
  intro db2 res h
  rw [hstep, Except.ok.injEq, Prod.mk.injEq] at h
  obtain ⟨hdb, -⟩ := h
  subst hdb
  refine ⟨?_, ?_, ?_, ?_, rfl, rfl, rfl, rfl, rfl, rfl⟩
  · intro r hr hrp
    simp only [updateProjectWorktrees, List.mem_filter] at hr
    have h2 := hr.2
    rw [hrp] at h2
    simp only [beq_self_eq_true, Bool.true_and, Bool.not_not] at h2
    have : r.id ∈ ws.map (fun w => w.id) := by
      have := h2
      simpa using this
    exact this
  · intro w hw
    obtain ⟨r, hr, h1, h2⟩ := fold_upsert_key project_id ws db.worktrees w hw
    refine ⟨r, ?_, h1, h2⟩
    simp only [updateProjectWorktrees, List.mem_filter]
    refine ⟨hr, ?_⟩
    have hidmem : r.id ∈ ws.map (fun w => w.id) := List.mem_map.mpr ⟨w, hw, h2.symm⟩
    simp [hidmem]
  · intro hnodup w hw
    obtain ⟨r, hr, h1, h2, h3⟩ := fold_upsert_root project_id ws db.worktrees hnodup w hw
    refine ⟨r, ?_, h1, h2, h3⟩
    simp only [updateProjectWorktrees, List.mem_filter]
    refine ⟨hr, ?_⟩
    have hidmem : r.id ∈ ws.map (fun w => w.id) := List.mem_map.mpr ⟨w, hw, h2.symm⟩
    simp [hidmem]
  · show (updateProjectWorktrees project_id ws db.worktrees).filter (fun r => !(r.project_id == project_id)) = db.worktrees.filter (fun r => !(r.project_id == project_id))
    unfold updateProjectWorktrees
    rw [delete_preserves_other_projects, fold_upsert_preserves_other_projects]


theorem c5_update_project_witness :
    (∃ res, update_project 1 3 exWs5 exDb5 = .ok res) ∧
    (∀ db2 res, update_project 1 3 exWs5 exDb5 = .ok (db2, res) →
      (∀ r ∈ db2.worktrees, r.project_id = 1 → r.id ∈ exWs5.map (fun w => w.id)) ∧
      (∀ w ∈ exWs5, ∃ r ∈ db2.worktrees, r.project_id = 1 ∧ r.id = w.id) ∧
      ((exWs5.map (fun w => w.id)).Nodup →
        ∀ w ∈ exWs5, ∃ r ∈ db2.worktrees, r.project_id = 1 ∧ r.id = w.id ∧ r.root_name = w.root_name) ∧
      db2.worktrees.filter (fun r => !(r.project_id == 1)) = exDb5.worktrees.filter (fun r => !(r.project_id == 1)) ∧
      db2.projects = exDb5.projects ∧ db2.project_collaborators = exDb5.project_collaborators ∧
      db2.rooms = exDb5.rooms ∧ db2.room_participants = exDb5.room_participants ∧
      db2.worktree_entries = exDb5.worktree_entries ∧ db2.contacts = exDb5.contacts) :=
  c5_update_project_replaces_worktrees 1 3 exWs5 exDb5 ⟨1, 1, 100, 3⟩
    (by decide) (by decide)


theorem share_project_state (rid cid : Int) (ws : List WorktreeMetadata)
    (db : Db) (res : Db × (Int × RoomView))
    (h : share_project rid cid ws db = .ok res) :
    ∃ part, (db.room_participants.filter (fun p => p.answering_connection_id == some cid)).head? = some part ∧
      res.1 = { db with
        projects := db.projects ++ [⟨db.next_project_id, part.room_id, part.user_id, cid⟩],
        worktrees := db.worktrees ++ ws.map (fun w => ⟨db.next_project_id, w.id, w.root_name, w.abs_path, w.visible, 0, false⟩),
        project_collaborators := db.project_collaborators ++ [⟨db.next_project_id, cid, part.user_id, 0, true⟩],
        next_project_id := db.next_project_id + 1 } := by
  unfold share_project at h
  cases hpart : (db.room_participants.filter (fun p => p.answering_connection_id == some cid)).head? with
  | none => rw [hpart] at h; cases h
  | some part =>
    simp only [hpart] at h
    refine ⟨part, rfl, ?_⟩
    by_cases hrid : (part.room_id != rid) = true
    · rw [if_pos hrid] at h; cases h
    · rw [if_neg hrid] at h
      cases hget : get_room part.room_id { db with
          projects := db.projects ++ [⟨db.next_project_id, part.room_id, part.user_id, cid⟩],
          worktrees := db.worktrees ++ ws.map (fun w => ⟨db.next_project_id, w.id, w.root_name, w.abs_path, w.visible, 0, false⟩),
          project_collaborators := db.project_collaborators ++ [⟨db.next_project_id, cid, part.user_id, 0, true⟩],
          next_project_id := db.next_project_id + 1 } with
      | error e => simp only [hget] at h; cases h
      | ok room =>
        simp only [hget] at h
        cases h
        rfl


theorem join_project_state (pid cid : Int) (db : Db)
    (res : Db × (Project × Int)) (h : join_project pid cid db = .ok res) :
    ∃ part, (db.room_participants.filter (fun p => p.answering_connection_id == some cid)).head? = some part ∧
      db.projects.any (fun p => p.id == pid && p.room_id == part.room_id) = true ∧
      res.1 = { db with project_collaborators := db.project_collaborators ++ [⟨pid, cid, part.user_id, pickReplicaId ((db.project_collaborators.filter (fun c => c.project_id == pid)).map (fun c => c.replica_id)), false⟩] } := by
  unfold join_project at h
  cases hpart : (db.room_participants.filter (fun p => p.answering_connection_id == some cid)).head? with
  | none => rw [hpart] at h; cases h
  | some part =>
    simp only [hpart] at h
    refine ⟨part, rfl, ?_, ?_⟩
    · by_cases hproj : db.projects.any (fun p => p.id == pid && p.room_id == part.room_id) = true
      · exact hproj
      · exfalso
        have hfalse : db.projects.any (fun p => p.id == pid && p.room_id == part.room_id) = false := by
          simpa using hproj
        simp only [hfalse, Bool.not_false, if_true] at h
        cases h
    · by_cases hproj : db.projects.any (fun p => p.id == pid && p.room_id == part.room_id) = true
      · simp only [hproj, Bool.not_true, Bool.false_eq_true, if_false] at h
        cases h
        rfl
      · exfalso
        have hfalse : db.projects.any (fun p => p.id == pid && p.room_id == part.room_id) = false := by
          simpa using hproj
        simp only [hfalse, Bool.not_false, if_true] at h
        cases h


theorem leave_project_state (pid cid : Int) (db : Db) (res : Db × LeftProject)
    (h : leave_project pid cid db = .ok res) :
    res.1 = deleteProjectCollaborator pid cid db := by
  unfold leave_project at h
  by_cases hdel : ((db.project_collaborators.filter (fun c => c.project_id == pid && c.connection_id == cid)).length == 0) = true
  · simp only [hdel, if_true] at h
    cases h
  · have hfalse : ((db.project_collaborators.filter (fun c => c.project_id == pid && c.connection_id == cid)).length == 0) = false := by
      simpa using hdel
    simp only [hfalse, Bool.false_eq_true, if_false] at h
    cases hh : ((deleteProjectCollaborator pid cid db).projects.filter (fun p => p.id == pid)).head? with
    | none => simp only [hh] at h; cases h
    | some proj =>
      simp only [hh] at h
      cases h
      rfl


theorem ProjInv_share (db : Db) (rid cid : Int) (ws : List WorktreeMetadata)
    (res : Db × (Int × RoomView)) (hinv : ProjInv db)
    (h : share_project rid cid ws db = .ok res) : ProjInv res.1 := by
  obtain ⟨part, -, hstate⟩ := share_project_state rid cid ws db res h
  obtain ⟨hbound, hexists, hnodup, hhost⟩ := hinv
  rw [hstate]
  refine ⟨?_, ?_, ?_, ?_⟩
  · intro p hp
    rcases List.mem_append.mp hp with hold | hnew
    · have := hbound p hold
      simp only
      omega
    · rw [List.mem_singleton] at hnew
      subst hnew
      simp only
      omega
  · intro c hc
    rcases List.mem_append.mp hc with hold | hnew
    · obtain ⟨p, hp, hpe⟩ := hexists c hold
      exact ⟨p, List.mem_append_left _ hp, hpe⟩
    · rw [List.mem_singleton] at hnew
      subst hnew
      exact ⟨⟨db.next_project_id, part.room_id, part.user_id, cid⟩,
        List.mem_append_right _ (List.mem_singleton_self _), rfl⟩
  · intro pid
    simp only [List.filter_append, List.map_append]
    by_cases hpid : pid = db.next_project_id
    · subst hpid
      have hempty : db.project_collaborators.filter (fun c => c.project_id == db.next_project_id) = [] := by
        rw [List.filter_eq_nil_iff]
        intro c hc hcp
        obtain ⟨p, hp, hpe⟩ := hexists c hc
        have hb := hbound p hp
        rw [beq_iff_eq] at hcp
        omega
      rw [hempty]
      simp
    · have hsingle : ([(⟨db.next_project_id, cid, part.user_id, 0, true⟩ : ProjectCollaborator)].filter (fun c => c.project_id == pid)) = [] := by
        simp only [List.filter_cons, List.filter_nil]
        rw [if_neg ?_]
        simp only [beq_iff_eq]
        exact fun hEq => hpid hEq.symm
      rw [hsingle]
      simp only [List.map_nil, List.append_nil]
      exact hnodup pid
  · intro c hc hhostc
    rcases List.mem_append.mp hc with hold | hnew
    · exact hhost c hold hhostc
    · rw [List.mem_singleton] at hnew
      subst hnew
      rfl


theorem ProjInv_join (db : Db) (pid cid : Int) (res : Db × (Project × Int))
    (hinv : ProjInv db) (h : join_project pid cid db = .ok res) :
    ProjInv res.1 := by
  obtain ⟨part, -, hproj, hstate⟩ := join_project_state pid cid db res h
  obtain ⟨hbound, hexists, hnodup, hhost⟩ := hinv
  rw [hstate]
  have hpickspec := pickReplicaId_spec ((db.project_collaborators.filter (fun c => c.project_id == pid)).map (fun c => c.replica_id))
  refine ⟨hbound, ?_, ?_, ?_⟩
  · intro c hc
    rcases List.mem_append.mp hc with hold | hnew
    · exact hexists c hold
    · rw [List.mem_singleton] at hnew
      subst hnew
      rw [List.any_eq_true] at hproj
      obtain ⟨p, hp, hpm⟩ := hproj
      simp only [Bool.and_eq_true, beq_iff_eq] at hpm
      exact ⟨p, hp, hpm.1⟩
  · intro q
    simp only [List.filter_append, List.map_append]
    by_cases hq : pid = q
    · subst hq
      have hsingle : ([(⟨pid, cid, part.user_id, pickReplicaId ((db.project_collaborators.filter (fun c => c.project_id == pid)).map (fun c => c.replica_id)), false⟩ : ProjectCollaborator)].filter (fun c => c.project_id == pid)) = [⟨pid, cid, part.user_id, pickReplicaId ((db.project_collaborators.filter (fun c => c.project_id == pid)).map (fun c => c.replica_id)), false⟩] := by
        simp
      rw [hsingle]
      rw [List.map_cons, List.map_nil]
      rw [List.nodup_append]
      refine ⟨hnodup pid, List.nodup_singleton _, ?_⟩
      intro a ha hb
      rw [List.mem_singleton] at hb
      subst hb
      exact hpickspec.1 ha
    · have hsingle : ([(⟨pid, cid, part.user_id, pickReplicaId ((db.project_collaborators.filter (fun c => c.project_id == pid)).map (fun c => c.replica_id)), false⟩ : ProjectCollaborator)].filter (fun c => c.project_id == q)) = [] := by
        simp only [List.filter_cons, List.filter_nil]
        rw [if_neg ?_]
        simp only [beq_iff_eq]
        exact hq
      rw [hsingle]
      simp only [List.map_nil, List.append_nil]
      exact hnodup q
  · intro c hc hhostc
    rcases List.mem_append.mp hc with hold | hnew
    · exact hhost c hold hhostc
    · rw [List.mem_singleton] at hnew
      subst hnew
      cases hhostc


theorem ProjInv_leave (db : Db) (pid cid : Int) (res : Db × LeftProject)
    (hinv : ProjInv db) (h : leave_project pid cid db = .ok res) :
    ProjInv res.1 := by
  rw [leave_project_state pid cid db res h]
  obtain ⟨hbound, hexists, hnodup, hhost⟩ := hinv
  unfold deleteProjectCollaborator
  refine ⟨hbound, ?_, ?_, ?_⟩
  · intro c hc
    exact hexists c (List.mem_filter.mp hc).1
  · intro q
    have hsub : List.Sublist ((db.project_collaborators.filter (fun c => !(c.project_id == pid && c.connection_id == cid))).filter (fun c => c.project_id == q)) (db.project_collaborators.filter (fun c => c.project_id == q)) :=
      List.Sublist.filter _ (List.filter_sublist _)
    exact (hnodup q).sublist (hsub.map _)
  · intro c hc hhostc
    exact hhost c (List.mem_filter.mp hc).1 hhostc


theorem ProjInv_of_reachable (db : Db) (h : Reachable db) : ProjInv db := by
  induction h with
  | init db hp hc =>
    refine ⟨?_, ?_, ?_, ?_⟩
    · intro p hp1; rw [hp] at hp1; cases hp1
    · intro c hc1; rw [hc] at hc1; cases hc1
    · intro pid; rw [hc]; exact List.Pairwise.nil
    · intro c hc1; rw [hc] at hc1; cases hc1
  | share db rid cid ws res _ hstep ih => exact ProjInv_share db rid cid ws res ih hstep
  | join db pid cid res _ hstep ih => exact ProjInv_join db pid cid res ih hstep
  | leave db pid cid res _ hstep ih => exact ProjInv_leave db pid cid res ih hstep


/-- C2: in every state reachable by any sequence of successful
`share_project`, `join_project` and `leave_project` calls from a store with
no shared projects, the replica ids of each project's collaborators are
pairwise distinct, and every host collaborator row (`is_host = true`) holds
replica id 0 (the value `share_project` inserted for it). -/
theorem c2_replica_ids_unique (db : Db) (h : Reachable db) :
    (∀ pid : Int, ((db.project_collaborators.filter (fun c => c.project_id == pid)).map (fun c => c.replica_id)).Nodup) ∧
    (∀ c ∈ db.project_collaborators, c.is_host = true → c.replica_id = 0) := by
  obtain ⟨-, -, h3, h4⟩ := ProjInv_of_reachable db h
  exact ⟨h3, h4⟩


theorem c2_replica_ids_witness :
    (∀ pid : Int, ((exDb2.project_collaborators.filter (fun c => c.project_id == pid)).map (fun c => c.replica_id)).Nodup) ∧
    (∀ c ∈ exDb2.project_collaborators, c.is_host = true → c.replica_id = 0) :=
  c2_replica_ids_unique exDb2 (Reachable.init exDb2 rfl rfl)


/-! ## C6: contact-request canonicalization -/
theorem map_if_id {α : Type} (p : α → Bool) (f : α → α) (l : List α)
    (h : ∀ a ∈ l, p a = false) :
    l.map (fun a => if p a then f a else a) = l := by
  induction l with
  | nil => rfl
  | cons a t ih =>
    simp only [List.map_cons]
    rw [h a (List.mem_cons_self a t)]
    simp only [Bool.false_eq_true, if_false]
    rw [ih (fun b hb => h b (List.mem_cons_of_mem a hb))]


theorem sendContactGuard_opposite (a b : Int) (t : Bool) :
    sendContactGuard a b t ⟨a, b, !t, false, true⟩ = true := by
  unfold sendContactGuard
  cases t <;> simp


theorem sendContactGuard_same (a b : Int) (t : Bool) (hne : a ≠ b) :
    sendContactGuard a b t ⟨a, b, t, false, true⟩ = false := by
  unfold sendContactGuard
  cases t <;> simp [hne]


theorem sendContactUpsert_fresh (a b : Int) (t : Bool) (db : Db)
    (hfresh : ∀ c ∈ db.contacts, (c.user_id_a == a && c.user_id_b == b) = false) :
    sendContactUpsert a b t db =
      .ok ({ db with contacts := db.contacts ++ [⟨a, b, t, false, true⟩] }, ()) := by
  unfold sendContactUpsert
  have hany : db.contacts.any (fun c => c.user_id_a == a && c.user_id_b == b) = false := by
    rw [List.any_eq_false]
    intro c hc
    rw [hfresh c hc]
    exact Bool.false_ne_true
  rw [hany]
  simp only [Bool.false_eq_true, if_false]


theorem sendContactUpsert_accept (a b : Int) (t : Bool) (db : Db)
    (old : List ContactRow)
    (hctts : db.contacts = old ++ [⟨a, b, !t, false, true⟩])
    (hfresh : ∀ c ∈ old, (c.user_id_a == a && c.user_id_b == b) = false) :
    sendContactUpsert a b t db =
      .ok ({ db with contacts := old ++ [⟨a, b, !t, true, false⟩] }, ()) := by
  unfold sendContactUpsert
  rw [hctts]
  have hanyold : old.any (fun c => c.user_id_a == a && c.user_id_b == b) = false := by
    rw [List.any_eq_false]
    intro c hc
    rw [hfresh c hc]
    exact Bool.false_ne_true
  have hany : (old ++ [(⟨a, b, !t, false, true⟩ : ContactRow)]).any (fun c => c.user_id_a == a && c.user_id_b == b) = true := by
    rw [List.any_append, hanyold]
    simp
  rw [hany, if_pos rfl]
  have hfilter : (old ++ [(⟨a, b, !t, false, true⟩ : ContactRow)]).filter (fun c => (c.user_id_a == a && c.user_id_b == b) && sendContactGuard a b t c) = [⟨a, b, !t, false, true⟩] := by
    rw [List.filter_append]
    have h1 : old.filter (fun c => (c.user_id_a == a && c.user_id_b == b) && sendContactGuard a b t c) = [] := by
      rw [List.filter_eq_nil_iff]
      intro c hc
      rw [hfresh c hc, Bool.false_and]
      exact Bool.false_ne_true
    rw [h1, List.nil_append, List.filter_cons, List.filter_nil]
    rw [if_pos ?_]
    simp [sendContactGuard_opposite a b t]
  have hmap : (old ++ [(⟨a, b, !t, false, true⟩ : ContactRow)]).map (fun c => if (c.user_id_a == a && c.user_id_b == b) && sendContactGuard a b t c then { c with accepted := true, should_notify := false } else c) = old ++ [⟨a, b, !t, true, false⟩] := by
    rw [List.map_append]
    congr 1
    · apply map_if_id
      intro c hc
      rw [hfresh c hc, Bool.false_and]
    · rw [List.map_cons, List.map_nil]
      rw [if_pos ?_]
      simp [sendContactGuard_opposite a b t]
  simp only [hfilter, hmap]
  rfl


theorem sendContactUpsert_duplicate (a b : Int) (t : Bool) (db : Db)
    (old : List ContactRow)
    (hctts : db.contacts = old ++ [⟨a, b, t, false, true⟩])
    (hfresh : ∀ c ∈ old, (c.user_id_a == a && c.user_id_b == b) = false)
    (hne : a ≠ b) :
    sendContactUpsert a b t db = .error (.message "contact already requested") := by
  unfold sendContactUpsert
  rw [hctts]
  have hanyold : old.any (fun c => c.user_id_a == a && c.user_id_b == b) = false := by
    rw [List.any_eq_false]
    intro c hc
    rw [hfresh c hc]
    exact Bool.false_ne_true
  have hany : (old ++ [(⟨a, b, t, false, true⟩ : ContactRow)]).any (fun c => c.user_id_a == a && c.user_id_b == b) = true := by
    rw [List.any_append, hanyold]
    simp
  rw [hany, if_pos rfl]
  have hfilter : (old ++ [(⟨a, b, t, false, true⟩ : ContactRow)]).filter (fun c => (c.user_id_a == a && c.user_id_b == b) && sendContactGuard a b t c) = [] := by
    rw [List.filter_append]
    have h1 : old.filter (fun c => (c.user_id_a == a && c.user_id_b == b) && sendContactGuard a b t c) = [] := by
      rw [List.filter_eq_nil_iff]
      intro c hc
      rw [hfresh c hc, Bool.false_and]
      exact Bool.false_ne_true
    rw [h1, List.nil_append, List.filter_cons, List.filter_nil]
    rw [if_neg ?_]
    rw [sendContactGuard_same a b t hne]
    simp
  simp only [hfilter]
  rfl


/-- C6: starting with no contact row between distinct users `A` and `B`,
`send_contact_request(A,B)` then `send_contact_request(B,A)` both succeed
and leave exactly one contact row for the canonical pair, accepted (the
mutual request collapses into the single directional row — not two rows);
repeating the same-direction request instead fails with "contact already
requested" and leaves the state unchanged (the transaction never commits).
Instantiating `A`/`B` both ways covers the two orders. -/
theorem c6_contact_request_symmetric (A B : Int) (db : Db) (hAB : A ≠ B)
    (hfresh : ∀ c ∈ db.contacts,
      ¬((c.user_id_a = A ∧ c.user_id_b = B) ∨ (c.user_id_a = B ∧ c.user_id_b = A))) :
    ∃ db1 db2,
      send_contact_request A B db = .ok (db1, ()) ∧
      send_contact_request B A db1 = .ok (db2, ()) ∧
      db2.contacts = db.contacts ++ [⟨min A B, max A B, decide (A < B), true, false⟩] ∧
      (db2.contacts.filter (fun c => c.user_id_a == min A B && c.user_id_b == max A B)).length = 1 ∧
      (∀ c ∈ db2.contacts, c.user_id_a = min A B → c.user_id_b = max A B → c.accepted = true) ∧
      applyTx (send_contact_request A B) db1 = (db1, .error (.message "contact already requested")) := by
  rcases lt_or_gt_of_ne hAB with hlt | hgt
  · rw [min_eq_left hlt.le, max_eq_right hlt.le, decide_eq_true hlt]
    have hkf : ∀ c ∈ db.contacts, (c.user_id_a == A && c.user_id_b == B) = false := by
      intro c hc
      refine Bool.eq_false_iff.mpr ?_
      intro htrue
      simp only [Bool.and_eq_true, beq_iff_eq] at htrue
      exact hfresh c hc (Or.inl htrue)
    have hs1 : ∀ d, send_contact_request A B d = sendContactUpsert A B true d := by
      intro d; unfold send_contact_request; rw [if_pos hlt]
    have hs2 : ∀ d, send_contact_request B A d = sendContactUpsert A B false d := by
      intro d; unfold send_contact_request
      rw [if_neg (lt_asymm hlt)]
    refine ⟨{ db with contacts := db.contacts ++ [⟨A, B, true, false, true⟩] },
            { db with contacts := db.contacts ++ [⟨A, B, true, true, false⟩] },
            ?_, ?_, rfl, ?_, ?_, ?_⟩
    · rw [hs1]
      exact sendContactUpsert_fresh A B true db hkf
    · rw [hs2]
      exact sendContactUpsert_accept A B false _ db.contacts rfl hkf
    · have hf0 : db.contacts.filter (fun c => c.user_id_a == A && c.user_id_b == B) = [] := by
        rw [List.filter_eq_nil_iff]
        intro c hc
        rw [hkf c hc]
        exact Bool.false_ne_true
      show ((db.contacts ++ [(⟨A, B, true, true, false⟩ : ContactRow)]).filter (fun c => c.user_id_a == A && c.user_id_b == B)).length = 1
      rw [List.filter_append, hf0, List.nil_append, List.filter_cons, List.filter_nil]
      rw [if_pos (by simp)]
      rfl
    · intro c hc h1 h2
      rcases List.mem_append.mp hc with hold | hnew
      · exact absurd (Or.inl ⟨h1, h2⟩) (hfresh c hold)
      · rw [List.mem_singleton] at hnew
        subst hnew
        rfl
    · unfold applyTx
      rw [hs1, sendContactUpsert_duplicate A B true _ db.contacts rfl hkf hAB]
  · rw [min_eq_right hgt.le, max_eq_left hgt.le, decide_eq_false (lt_asymm hgt)]
    have hBA : B ≠ A := fun hEq => hAB hEq.symm
    have hkf : ∀ c ∈ db.contacts, (c.user_id_a == B && c.user_id_b == A) = false := by
      intro c hc
      refine Bool.eq_false_iff.mpr ?_
      intro htrue
      simp only [Bool.and_eq_true, beq_iff_eq] at htrue
      exact hfresh c hc (Or.inr htrue)
    have hs1 : ∀ d, send_contact_request A B d = sendContactUpsert B A false d := by
      intro d; unfold send_contact_request
      rw [if_neg (lt_asymm hgt)]
    have hs2 : ∀ d, send_contact_request B A d = sendContactUpsert B A true d := by
      intro d; unfold send_contact_request; rw [if_pos hgt]
    refine ⟨{ db with contacts := db.contacts ++ [⟨B, A, false, false, true⟩] },
            { db with contacts := db.contacts ++ [⟨B, A, false, true, false⟩] },
            ?_, ?_, rfl, ?_, ?_, ?_⟩
    · rw [hs1]
      exact sendContactUpsert_fresh B A false db hkf
    · rw [hs2]
      exact sendContactUpsert_accept B A true _ db.contacts rfl hkf
    · have hf0 : db.contacts.filter (fun c => c.user_id_a == B && c.user_id_b == A) = [] := by
        rw [List.filter_eq_nil_iff]
        intro c hc
        rw [hkf c hc]
        exact Bool.false_ne_true
      show ((db.contacts ++ [(⟨B, A, false, true, false⟩ : ContactRow)]).filter (fun c => c.user_id_a == B && c.user_id_b == A)).length = 1
      rw [List.filter_append, hf0, List.nil_append, List.filter_cons, List.filter_nil]
      rw [if_pos (by simp)]
      rfl
    · intro c hc h1 h2
      rcases List.mem_append.mp hc with hold | hnew
      · exact absurd (Or.inr ⟨h1, h2⟩) (hfresh c hold)
      · rw [List.mem_singleton] at hnew
        subst hnew
        rfl
    · unfold applyTx
      rw [hs1, sendContactUpsert_duplicate B A false _ db.contacts rfl hkf hBA]


theorem c6_contact_request_witness :
    ∃ db1 db2,
      send_contact_request 1 2 exDb6 = .ok (db1, ()) ∧
      send_contact_request 2 1 db1 = .ok (db2, ()) ∧
      db2.contacts = exDb6.contacts ++ [⟨min 1 2, max 1 2, decide ((1 : Int) < 2), true, false⟩] ∧
      (db2.contacts.filter (fun c => c.user_id_a == min 1 2 && c.user_id_b == max 1 2)).length = 1 ∧
      (∀ c ∈ db2.contacts, c.user_id_a = min 1 2 → c.user_id_b = max 1 2 → c.accepted = true) ∧
      applyTx (send_contact_request 1 2) db1 = (db1, .error (.message "contact already requested")) :=
  c6_contact_request_symmetric 1 2 exDb6 (by decide) (by intro c hc; cases hc)


theorem flatMap_singleton_fn {α β : Type} (f : α → β) (l : List α) :
    l.flatMap (fun a => [f a]) = l.map f := by
  induction l with
  | nil => rfl
  | cons a t ih => simp [ih]


theorem classify_busy_eq (u : Int) (busy : Bool) (c : ContactRow)
    (uid : Int) (notify b : Bool)
    (h : classifyContactRow u busy c = Contact.accepted uid notify b) :
    b = busy := by
  unfold classifyContactRow at h
  split_ifs at h <;> cases h <;> rfl


theorem busy_flag_iff (u : Int) (db : Db) :
    (!(db.room_participants.filter (fun p => p.user_id == u)).isEmpty) = true ↔
      ∃ p ∈ db.room_participants, p.user_id = u := by
  constructor
  · intro h
    have hne : db.room_participants.filter (fun p => p.user_id == u) ≠ [] := by
      intro hnil
      rw [hnil] at h
      cases h
    obtain ⟨q, rest, hq⟩ := List.exists_cons_of_ne_nil hne
    have hqmem : q ∈ db.room_participants.filter (fun p => p.user_id == u) := by
      rw [hq]; exact List.mem_cons_self q rest
    rw [List.mem_filter] at hqmem
    exact ⟨q, hqmem.1, by simpa using hqmem.2⟩
  · rintro ⟨p, hp, he⟩
    have hmem : p ∈ db.room_participants.filter (fun p => p.user_id == u) := by
      rw [List.mem_filter]
      exact ⟨hp, by simp [he]⟩
    cases hfl : db.room_participants.filter (fun p => p.user_id == u) with
    | nil => rw [hfl] at hmem; cases hmem
    | cons q rest => rfl


/-- C9 (amended): for a querying user `u` with at most one participant row
of their own, `get_contacts u` returns one entry per contact row involving
`u`, classified from the row's direction and accepted flags, sorted in
ascending order of the peer's user id — but each entry's busy flag is true
exactly when *the querying user* `u` is currently a participant in some
room (the LEFT JOIN condition is `room_participants.user_id = $1`), not
when the peer is. -/
theorem c9_get_contacts_caller_busy (u : Int) (db : Db)
    (hsingle : (db.room_participants.filter (fun p => p.user_id == u)).length ≤ 1) :
    ∃ lst, get_contacts u db = .ok lst ∧
      lst.Perm ((db.contacts.filter (fun c => c.user_id_a == u || c.user_id_b == u)).map
        (classifyContactRow u (!(db.room_participants.filter (fun p => p.user_id == u)).isEmpty))) ∧
      List.Sorted (fun a b : Contact => a.user_id ≤ b.user_id) lst ∧
      (∀ x ∈ lst, ∀ uid notify busy, x = Contact.accepted uid notify busy →
        (busy = true ↔ ∃ p ∈ db.room_participants, p.user_id = u)) := by
  have hmax : max (db.room_participants.filter (fun p => p.user_id == u)).length 1 = 1 := by
    omega
  have hrows : (db.contacts.filter (fun c => c.user_id_a == u || c.user_id_b == u)).flatMap
      (fun c => List.replicate (max (db.room_participants.filter (fun p => p.user_id == u)).length 1) (c, !(db.room_participants.filter (fun p => p.user_id == u)).isEmpty)) =
      (db.contacts.filter (fun c => c.user_id_a == u || c.user_id_b == u)).map (fun c => (c, !(db.room_participants.filter (fun p => p.user_id == u)).isEmpty)) := by
    rw [hmax]
    simp only [List.replicate_one]
    exact flatMap_singleton_fn _ _
  have heq : get_contacts u db = .ok (List.insertionSort (fun a b => a.user_id ≤ b.user_id)
      (((db.contacts.filter (fun c => c.user_id_a == u || c.user_id_b == u)).map
        (fun c => (c, !(db.room_participants.filter (fun p => p.user_id == u)).isEmpty))).map
        (fun rc => classifyContactRow u rc.2 rc.1))) := by
    simp only [get_contacts]
    rw [hrows]
  have hmm : ((db.contacts.filter (fun c => c.user_id_a == u || c.user_id_b == u)).map
      (fun c => (c, !(db.room_participants.filter (fun p => p.user_id == u)).isEmpty))).map
      (fun rc => classifyContactRow u rc.2 rc.1) =
      (db.contacts.filter (fun c => c.user_id_a == u || c.user_id_b == u)).map
        (classifyContactRow u (!(db.room_participants.filter (fun p => p.user_id == u)).isEmpty)) := by
    rw [List.map_map]
    rfl
  refine ⟨_, heq, ?_, ?_, ?_⟩
  · rw [← hmm]
    exact List.perm_insertionSort _ _
  · exact List.sorted_insertionSort _ _
  · intro x hx uid notify busy hxeq
    have hmem := (List.perm_insertionSort (fun a b : Contact => a.user_id ≤ b.user_id) _).mem_iff.mp hx
    rw [hmm, List.mem_map] at hmem
    obtain ⟨c, -, hc⟩ := hmem
    subst hxeq
    have hb := classify_busy_eq u
      (!(db.room_participants.filter (fun p => p.user_id == u)).isEmpty) c uid notify busy hc
    rw [hb]
    exact busy_flag_iff u db


/-- C9 counterexample: the peer (user 2) is a participant of room 5, yet
the single entry returned to user 1 carries `busy = false` — the busy flag
reflects the querying user's own room presence, not the peer's. -/
theorem c9_counterexample :
    exDb9.room_participants.any (fun p => p.user_id == 2) = true ∧
    (∀ p ∈ exDb9.room_participants, p.user_id ≠ 1) ∧
    (get_contacts 1 exDb9).toOption = some [Contact.accepted 2 false false] := by
  refine ⟨rfl, by decide, ?_⟩
  decide


theorem c9_get_contacts_witness :
    ∃ lst, get_contacts 1 exDb9 = .ok lst ∧
      lst.Perm ((exDb9.contacts.filter (fun c => c.user_id_a == 1 || c.user_id_b == 1)).map
        (classifyContactRow 1 (!(exDb9.room_participants.filter (fun p => p.user_id == 1)).isEmpty))) ∧
      List.Sorted (fun a b : Contact => a.user_id ≤ b.user_id) lst ∧
      (∀ x ∈ lst, ∀ uid notify busy, x = Contact.accepted uid notify busy →
        (busy = true ↔ ∃ p ∈ exDb9.room_participants, p.user_id = 1)) :=
  c9_get_contacts_caller_busy 1 exDb9 (by decide)


theorem c3_join_room_witness :
    ((∃ res, join_room 1 10 7 exDb3b = .ok res) ↔
      ∃ p ∈ exDb3b.room_participants, p.room_id = 1 ∧ p.user_id = 10) ∧
    (∀ db1 view, join_room 1 10 7 exDb3b = .ok (db1, view) →
      (∀ p ∈ db1.room_participants, p.room_id = 1 → p.user_id = 10 →
        p.answering_connection_id = some 7) ∧
      (∀ p ∈ exDb3b.room_participants, ¬(p.room_id = 1 ∧ p.user_id = 10) →
        p ∈ db1.room_participants) ∧
      db1.rooms = exDb3b.rooms ∧ db1.projects = exDb3b.projects ∧
      db1.project_collaborators = exDb3b.project_collaborators ∧
      db1.contacts = exDb3b.contacts) :=
  c3_join_room_amended 1 10 7 exDb3b (by decide)


end Collab
